import Mathlib

/-!
# tproxy_splicer.c : the tc classifier bpf_sk_splice

A shallow embedding of `src/src/tproxy_splicer.c`.

* Machine integers are natural numbers; a 16-bit load is reduced modulo `2 ^ 16`
  and the 32-bit subtraction of the mask arithmetic modulo `2 ^ 32`.
* Header fields hold the value the program loads from the frame on the
  little-endian BPF target: fields that are big-endian on the wire (EtherType,
  addresses, ports) are therefore byte-swapped with respect to their numeric
  value, and `bpf_ntohs` / `bpf_htons` swap the two bytes of a 16-bit word.
* The two BPF maps and the three socket helpers of the kernel are the fields of
  `Env`; every helper call and every array read of one packet evaluation is
  recorded, in program order, in the `trace` of the `Outcome`.
* `bpf_printk` only writes to the kernel trace pipe and is left out.
-/

namespace TproxySplicer

/-! ## Constants -/

/-- Source line 34: maximum number of prefixes of zt_tproxy_map. -/
def BPF_MAX_ENTRIES : Nat := 100
/-- Source line 35: maximum number of port ranges per prefix and protocol. -/
def MAX_INDEX_ENTRIES : Nat := 25
/-- Source line 36: size of the two mapping arrays of an entry. -/
def MAX_TABLE_SIZE : Nat := 65536

/-- Verdict "pass" of linux/pkt_cls.h. -/
def TC_ACT_OK : Int := 0
/-- Verdict "drop" of linux/pkt_cls.h. -/
def TC_ACT_SHOT : Int := 2

/-- EtherType of IPv4 (linux/if_ether.h). -/
def ETH_P_IP : Nat := 0x0800
/-- EtherType of ARP (linux/if_ether.h). -/
def ETH_P_ARP : Nat := 0x0806
/-- EtherType of IPv6 (linux/if_ether.h). -/
def ETH_P_IPV6 : Nat := 0x86DD
/-- The value of sizeof(struct ethhdr). -/
def ETH_HLEN : Nat := 14
/-- The value of sizeof(struct iphdr). -/
def IPHDR_SIZE : Nat := 20
/-- The value of offsetof(struct iphdr, saddr). -/
def IPHDR_SADDR_OFF : Nat := 12
/-- The value of sizeof(tuple->ipv4): two addresses and two ports. -/
def TUPLE_IPV4_SIZE : Nat := 12
/-- IP protocol number of TCP (linux/in.h). -/
def IPPROTO_TCP : Nat := 6
/-- IP protocol number of UDP (linux/in.h). -/
def IPPROTO_UDP : Nat := 17
/-- Socket state "listening" (linux/bpf.h). -/
def BPF_TCP_LISTEN : Nat := 10

/-- Byte swap of a 16-bit word: bpf_ntohs on the little-endian target. -/
def bpf_ntohs (x : Nat) : Nat := (x % 256) * 256 + (x / 256) % 256

/-- Byte swap of a 16-bit word: bpf_htons on the little-endian target. -/
def bpf_htons (x : Nat) : Nat := (x % 256) * 256 + (x / 256) % 256

/-! ## Data model (source lines 38-98) -/

/-- A TCP port range and its tproxy target; ports in network byte order. -/
structure tproxy_tcp_port_mapping where
  low_port : Nat
  high_port : Nat
  tproxy_port : Nat
  tproxy_ip : Nat

/-- A UDP port range and its tproxy target; ports in network byte order. -/
structure tproxy_udp_port_mapping where
  low_port : Nat
  high_port : Nat
  tproxy_port : Nat
  tproxy_ip : Nat

/-- Value of zt_tproxy_map. The arrays are given by their read function:
`udp_index_table` and `tcp_index_table` have MAX_INDEX_ENTRIES slots of 16 bits,
`udp_mapping` and `tcp_mapping` have MAX_TABLE_SIZE slots. -/
structure tproxy_tuple where
  dst_ip : Nat
  src_ip : Nat
  udp_index_len : Nat
  tcp_index_len : Nat
  udp_index_table : Nat → Nat
  tcp_index_table : Nat → Nat
  udp_mapping : Nat → tproxy_udp_port_mapping
  tcp_mapping : Nat → tproxy_tcp_port_mapping

/-- Key of zt_tproxy_map. -/
structure tproxy_key where
  dst_ip : Nat
  prefix_len : Nat
  pad : Nat
deriving DecidableEq, Repr

/-- Value of ifindex_ip_map. -/
structure ifindex_ip4 where
  ipaddr : Nat
  ifindex : Nat
deriving DecidableEq, Repr

/-- The ipv4 member of struct bpf_sock_tuple, fields as loaded (network byte order). -/
structure bpf_sock_tuple where
  saddr : Nat
  daddr : Nat
  sport : Nat
  dport : Nat
deriving DecidableEq, Repr

/-- A socket reference returned by a lookup helper: `ref` identifies the
socket, `state` and `dst_ip4` are the two fields the program reads. -/
structure bpf_sock where
  ref : Nat
  state : Nat
  dst_ip4 : Nat
deriving DecidableEq, Repr

/-- The frame as the program sees it: `len` is data_end - data, `h_proto` the
EtherType field of the header at offset 0, `ihl`, `protocol`, `saddr`, `daddr`
the fields of the IPv4 header at offset ETH_HLEN, `sport` and `dport` the four
bytes that follow a 20-byte IPv4 header. A field is only read after the bounds
check that guards it. -/
structure sk_buff where
  len : Nat
  h_proto : Nat
  ihl : Nat
  protocol : Nat
  saddr : Nat
  daddr : Nat
  sport : Nat
  dport : Nat
  ingress_ifindex : Nat
deriving DecidableEq, Repr

/-- The pointer get_tuple returns: `off` is its distance from skb->data and
`ipv4` the 4-tuple it points to. -/
structure tuple_ptr where
  off : Nat
  ipv4 : bpf_sock_tuple
deriving DecidableEq, Repr

/-- The five out-parameters of get_tuple. -/
structure proto_flags where
  ipv4 : Bool
  ipv6 : Bool
  udp : Bool
  tcp : Bool
  arp : Bool
deriving DecidableEq, Repr

/-- Kernel state one packet evaluation can observe. -/
structure Env where
  ifindex_ip_map : Nat → Option ifindex_ip4
  zt_tproxy_map : tproxy_key → Option tproxy_tuple
  bpf_skc_lookup_tcp : bpf_sock_tuple → Option bpf_sock
  bpf_sk_lookup_udp : bpf_sock_tuple → Option bpf_sock
  bpf_sk_assign : bpf_sock → Int

/-- One observable step of a packet evaluation. -/
inductive Event where
  | get_local_ip4 (key : Nat)
  | get_tproxy (key : tproxy_key)
  | read_index (udp : Bool) (index : Nat)
  | read_mapping (udp : Bool) (port_key : Nat)
  | skc_lookup_tcp (tuple : bpf_sock_tuple) (sk : Option bpf_sock)
  | sk_lookup_udp (tuple : bpf_sock_tuple) (sk : Option bpf_sock)
  | sk_assign (sk : bpf_sock) (ret : Int)
  | sk_release (sk : bpf_sock)
deriving DecidableEq, Repr

/-- Verdict of one packet evaluation together with the steps that led to it. -/
structure Outcome where
  verdict : Int
  trace : List Event
deriving DecidableEq, Repr

/-- The outcome `o` reached after the steps `pre`. -/
def Outcome.after (pre : List Event) (o : Outcome) : Outcome :=
  ⟨o.verdict, pre ++ o.trace⟩

/-! ## The program -/

/-- Source lines 153-157. -/
def get_tproxy (env : Env) (key : tproxy_key) : Option tproxy_tuple :=
  env.zt_tproxy_map key

/-- Source lines 165-170. -/
def get_local_ip4 (env : Env) (key : Nat) : Option ifindex_ip4 :=
  env.ifindex_ip_map key

/-- Source lines 185-236. The flags are passed in and returned. -/
def get_tuple (skb : sk_buff) (nh_off : Nat) (eth_proto : Nat) (f : proto_flags) :
    Option tuple_ptr × proto_flags :=
  if eth_proto = bpf_htons ETH_P_ARP then
    (none, { f with arp := true })
  else if eth_proto = bpf_htons ETH_P_IPV6 then
    (none, { f with ipv6 := true })
  else if eth_proto = bpf_htons ETH_P_IP then
    if nh_off + IPHDR_SIZE > skb.len then
      (none, { f with ipv4 := true })
    else if skb.ihl ≠ 5 then
      (none, { f with ipv4 := true })
    else if skb.protocol = IPPROTO_UDP then
      (some ⟨nh_off + IPHDR_SADDR_OFF, ⟨skb.saddr, skb.daddr, skb.sport, skb.dport⟩⟩,
        { f with ipv4 := true, udp := true })
    else if skb.protocol = IPPROTO_TCP then
      (some ⟨nh_off + IPHDR_SADDR_OFF, ⟨skb.saddr, skb.daddr, skb.sport, skb.dport⟩⟩,
        { f with ipv4 := true, tcp := true })
    else
      (none, { f with ipv4 := true })
  else
    (none, f)

/-- Source lines 287-299: does the port-22 rule return TC_ACT_OK. -/
def ssh_pass (local_ip4 : Option ifindex_ip4) (tuple : bpf_sock_tuple) (tcp : Bool) : Bool :=
  match local_ip4 with
  | some l =>
    if l.ipaddr ≠ 0 then
      decide (tuple.daddr = l.ipaddr ∧ bpf_ntohs tuple.dport = 22)
    else
      decide (tcp = true ∧ bpf_ntohs tuple.dport = 22)
  | none => decide (tcp = true ∧ bpf_ntohs tuple.dport = 22)

/-- Source lines 438-448, label assign. -/
def assign (env : Env) (sk : bpf_sock) : Outcome :=
  let ret := env.bpf_sk_assign sk
  ⟨if ret = 0 then TC_ACT_OK else TC_ACT_SHOT, [Event.sk_assign sk ret, Event.sk_release sk]⟩

/-- Source lines 310-318: some socket when the program jumps to assign. -/
def tcp_origin (env : Env) (tcp : Bool) (tuple : bpf_sock_tuple) :
    Option bpf_sock × List Event :=
  if tcp then
    match env.bpf_skc_lookup_tcp tuple with
    | some sk =>
      if sk.state ≠ BPF_TCP_LISTEN then
        (some sk, [Event.skc_lookup_tcp tuple (some sk)])
      else
        (none, [Event.skc_lookup_tcp tuple (some sk), Event.sk_release sk])
    | none => (none, [Event.skc_lookup_tcp tuple none])
  else
    (none, [])

/-- Source lines 323-339: some socket when the program jumps to assign. -/
def udp_origin (env : Env) (udp : Bool) (tuple : bpf_sock_tuple) :
    Option bpf_sock × List Event :=
  if udp then
    let sockcheck1 : bpf_sock_tuple := ⟨tuple.saddr, tuple.daddr, tuple.sport, tuple.dport⟩
    match env.bpf_sk_lookup_udp sockcheck1 with
    | some sk =>
      if sk.dst_ip4 ≠ 0 then
        (some sk, [Event.sk_lookup_udp sockcheck1 (some sk)])
      else
        (none, [Event.sk_lookup_udp sockcheck1 (some sk), Event.sk_release sk])
    | none => (none, [Event.sk_lookup_udp sockcheck1 none])
  else
    (none, [])

/-- Source lines 357-377: the port key of the first index position whose range
holds the destination port, and the array reads made. -/
def udp_scan (tproxy : tproxy_tuple) (tuple : bpf_sock_tuple) :
    List Nat → Option Nat × List Event
  | [] => (none, [])
  | index :: rest =>
    let port_key := tproxy.udp_index_table index % 2 ^ 16
    let reads := [Event.read_index true index, Event.read_mapping true port_key]
    if bpf_ntohs tuple.dport ≥ bpf_ntohs (tproxy.udp_mapping port_key).low_port
        ∧ bpf_ntohs tuple.dport ≤ bpf_ntohs (tproxy.udp_mapping port_key).high_port then
      (some port_key, reads)
    else
      ((udp_scan tproxy tuple rest).1, reads ++ (udp_scan tproxy tuple rest).2)

/-- Source lines 385-408: the port key of the first index position whose range
holds the destination port, and the array reads made. -/
def tcp_scan (tproxy : tproxy_tuple) (tuple : bpf_sock_tuple) :
    List Nat → Option Nat × List Event
  | [] => (none, [])
  | index :: rest =>
    let port_key := tproxy.tcp_index_table index % 2 ^ 16
    let reads := [Event.read_index false index, Event.read_mapping false port_key]
    if bpf_ntohs tuple.dport ≥ bpf_ntohs (tproxy.tcp_mapping port_key).low_port
        ∧ bpf_ntohs tuple.dport ≤ bpf_ntohs (tproxy.tcp_mapping port_key).high_port then
      (some port_key, reads)
    else
      ((tcp_scan tproxy tuple rest).1, reads ++ (tcp_scan tproxy tuple rest).2)

/-- Source lines 367-375: a UDP range was hit. -/
def udp_hit (env : Env) (m : tproxy_udp_port_mapping) : Outcome :=
  let sockcheck2 : bpf_sock_tuple := ⟨0, m.tproxy_ip, 0, m.tproxy_port⟩
  match env.bpf_sk_lookup_udp sockcheck2 with
  | none => ⟨TC_ACT_SHOT, [Event.sk_lookup_udp sockcheck2 none]⟩
  | some sk => (assign env sk).after [Event.sk_lookup_udp sockcheck2 (some sk)]

/-- Source lines 394-405: a TCP range was hit. -/
def tcp_hit (env : Env) (m : tproxy_tcp_port_mapping) : Outcome :=
  let sockcheck2 : bpf_sock_tuple := ⟨0, m.tproxy_ip, 0, m.tproxy_port⟩
  match env.bpf_skc_lookup_tcp sockcheck2 with
  | none => ⟨TC_ACT_SHOT, [Event.skc_lookup_tcp sockcheck2 none]⟩
  | some sk =>
    if sk.state ≠ BPF_TCP_LISTEN then
      ⟨TC_ACT_SHOT, [Event.skc_lookup_tcp sockcheck2 (some sk), Event.sk_release sk]⟩
    else
      (assign env sk).after [Event.skc_lookup_tcp sockcheck2 (some sk)]

/-- Source lines 348-410: one lookup of the main loop. The first component is
the outcome of the evaluation when a range was hit (the loop is left), none
when the loop goes on to the mask arithmetic. -/
def lookup_body (env : Env) (tuple : bpf_sock_tuple) (udp : Bool) (key : tproxy_key) :
    Option Outcome × List Event :=
  match get_tproxy env key with
  | some tproxy =>
    if udp then
      let udp_max_entries :=
        if tproxy.udp_index_len > MAX_INDEX_ENTRIES then MAX_INDEX_ENTRIES
        else tproxy.udp_index_len
      match udp_scan tproxy tuple (List.range udp_max_entries) with
      | (some port_key, reads) =>
        (some (udp_hit env (tproxy.udp_mapping port_key)), Event.get_tproxy key :: reads)
      | (none, reads) => (none, Event.get_tproxy key :: reads)
    else
      let tcp_max_entries :=
        if tproxy.tcp_index_len > MAX_INDEX_ENTRIES then MAX_INDEX_ENTRIES
        else tproxy.tcp_index_len
      match tcp_scan tproxy tuple (List.range tcp_max_entries) with
      | (some port_key, reads) =>
        (some (tcp_hit env (tproxy.tcp_mapping port_key)), Event.get_tproxy key :: reads)
      | (none, reads) => (none, Event.get_tproxy key :: reads)
  | none => (none, [Event.get_tproxy key])

/-- Source lines 414-422: the exponent after the three octet-boundary tests. -/
def next_exponent (mask exponent : Nat) : Nat :=
  let exponent := if mask = 0x00ffffff then 16 else exponent
  let exponent := if mask = 0x0000ffff then 8 else exponent
  let exponent := if mask = 0x000000ff then 0 else exponent
  exponent

/-- Source lines 426-434: the mask of the next iteration; the subtraction is
that of 32-bit unsigned words. -/
def next_mask (mask exponent : Nat) : Nat :=
  if mask ≥ 0x80ffffff ∧ exponent ≥ 24 then
    (mask + 2 ^ 32 - (1 <<< exponent) % 2 ^ 32) % 2 ^ 32
  else if mask ≥ 0x0080ffff ∧ exponent ≥ 16 then
    (mask + 2 ^ 32 - (1 <<< exponent) % 2 ^ 32) % 2 ^ 32
  else if mask ≥ 0x000080ff ∧ exponent ≥ 8 then
    (mask + 2 ^ 32 - (1 <<< exponent) % 2 ^ 32) % 2 ^ 32
  else if mask ≥ 0x00000080 ∧ exponent ≥ 0 then
    (mask + 2 ^ 32 - (1 <<< exponent) % 2 ^ 32) % 2 ^ 32
  else
    mask

/-- Source line 281. -/
def maxlen : Nat := 32

/-- Source lines 342-437: the main loop over the values of `count` still to
run, from the current `mask` and `exponent`. -/
def main_loop (env : Env) (tuple : bpf_sock_tuple) (udp : Bool) :
    List Nat → Nat → Nat → Outcome
  | [], _, _ => ⟨TC_ACT_SHOT, []⟩
  | count :: rest, mask, exponent =>
    let key : tproxy_key := ⟨tuple.daddr &&& mask, maxlen - count, 0⟩
    match lookup_body env tuple udp key with
    | (some out, steps) => out.after steps
    | (none, steps) =>
      if mask = 0x00000080 then
        ⟨TC_ACT_SHOT, steps⟩
      else
        (main_loop env tuple udp rest
          (next_mask mask (next_exponent mask exponent))
          (next_exponent mask exponent + 1)).after steps

/-- Source lines 283-448: bpf_sk_splice from the lookup of the interface
address on, for the 4-tuple and the flags get_tuple returned. -/
def classify_tuple (env : Env) (ingress_ifindex : Nat) (tuple : bpf_sock_tuple)
    (udp tcp : Bool) : Outcome :=
  let local_ip4 := get_local_ip4 env ingress_ifindex
  let step0 := Event.get_local_ip4 ingress_ifindex
  if ssh_pass local_ip4 tuple tcp then
    ⟨TC_ACT_OK, [step0]⟩
  else if udp ∧ bpf_ntohs tuple.sport = 67 then
    ⟨TC_ACT_OK, [step0]⟩
  else
    match tcp_origin env tcp tuple with
    | (some sk, steps1) => (assign env sk).after (step0 :: steps1)
    | (none, steps1) =>
      match udp_origin env udp tuple with
      | (some sk, steps2) => (assign env sk).after (step0 :: (steps1 ++ steps2))
      | (none, steps2) =>
        (main_loop env tuple udp (List.range (maxlen + 1)) 0xffffffff 24).after
          (step0 :: (steps1 ++ steps2))

/-- Source lines 240-449: the classifier. -/
def bpf_sk_splice (env : Env) (skb : sk_buff) : Outcome :=
  if ETH_HLEN > skb.len then
    ⟨TC_ACT_SHOT, []⟩
  else
    match get_tuple skb ETH_HLEN skb.h_proto ⟨false, false, false, false, false⟩ with
    | (none, f) => if f.arp then ⟨TC_ACT_OK, []⟩ else ⟨TC_ACT_SHOT, []⟩
    | (some tuple, f) =>
      if tuple.off + TUPLE_IPV4_SIZE > skb.len then
        ⟨TC_ACT_SHOT, []⟩
      else
        classify_tuple env skb.ingress_ifindex tuple.ipv4 f.udp f.tcp

/-! ## Notions used to state the properties -/

/-- The matcher as bpf_sk_splice starts it: all counts, mask 0xffffffff, exponent 24. -/
def matcher (env : Env) (tuple : bpf_sock_tuple) (udp : Bool) : Outcome :=
  main_loop env tuple udp (List.range (maxlen + 1)) 0xffffffff 24

/-- Mask and exponent at the start of iteration `i` of the main loop, by the
arithmetic of source lines 414-435. -/
def loop_state : Nat → Nat × Nat
  | 0 => (0xffffffff, 24)
  | i + 1 =>
    (next_mask (loop_state i).1 (next_exponent (loop_state i).1 (loop_state i).2),
      next_exponent (loop_state i).1 (loop_state i).2 + 1)

/-- Byte swap of a 32-bit word. -/
def bswap32 (x : Nat) : Nat :=
  (x % 256) * 2 ^ 24 + (x / 2 ^ 8 % 256) * 2 ^ 16 + (x / 2 ^ 16 % 256) * 2 ^ 8 + x / 2 ^ 24 % 256

/-- The netmask of prefix length `p` for an address held in network byte order
in a little-endian word. -/
def cidr_mask (p : Nat) : Nat := bswap32 ((0xffffffff <<< (32 - p)) % 2 ^ 32)

/-- The key of prefix length `p` for destination address `d`. -/
def prefix_key (d p : Nat) : tproxy_key := ⟨d &&& cidr_mask p, p, 0⟩

/-- Number of index positions the scan of an entry visits. -/
def active_len (E : tproxy_tuple) (udp : Bool) : Nat :=
  min (if udp then E.udp_index_len else E.tcp_index_len) MAX_INDEX_ENTRIES

/-- The port key the scan reads at index position `pos`. -/
def port_key_at (E : tproxy_tuple) (udp : Bool) (pos : Nat) : Nat :=
  (if udp then E.udp_index_table pos else E.tcp_index_table pos) % 2 ^ 16

/-- Lower bound, in host byte order, of the range referenced at position `pos`. -/
def range_lo (E : tproxy_tuple) (udp : Bool) (pos : Nat) : Nat :=
  if udp then bpf_ntohs (E.udp_mapping (port_key_at E udp pos)).low_port
  else bpf_ntohs (E.tcp_mapping (port_key_at E udp pos)).low_port

/-- Upper bound, in host byte order, of the range referenced at position `pos`. -/
def range_hi (E : tproxy_tuple) (udp : Bool) (pos : Nat) : Nat :=
  if udp then bpf_ntohs (E.udp_mapping (port_key_at E udp pos)).high_port
  else bpf_ntohs (E.tcp_mapping (port_key_at E udp pos)).high_port

/-- The target of the range referenced at position `pos`, as the socket tuple
the program looks up (sockcheck2). -/
def range_target (E : tproxy_tuple) (udp : Bool) (pos : Nat) : bpf_sock_tuple :=
  if udp then
    ⟨0, (E.udp_mapping (port_key_at E udp pos)).tproxy_ip, 0,
      (E.udp_mapping (port_key_at E udp pos)).tproxy_port⟩
  else
    ⟨0, (E.tcp_mapping (port_key_at E udp pos)).tproxy_ip, 0,
      (E.tcp_mapping (port_key_at E udp pos)).tproxy_port⟩

/-- The range referenced at position `pos` covers the port (host byte order). -/
def covers (E : tproxy_tuple) (udp : Bool) (pos port : Nat) : Prop :=
  range_lo E udp pos ≤ port ∧ port ≤ range_hi E udp pos

instance (E : tproxy_tuple) (udp : Bool) (pos port : Nat) : Decidable (covers E udp pos port) :=
  inferInstanceAs (Decidable (_ ∧ _))

/-- The entry holds an active range of the protocol covering the port. -/
def has_cover (E : tproxy_tuple) (udp : Bool) (port : Nat) : Prop :=
  ∃ pos, pos < active_len E udp ∧ covers E udp pos port

instance (E : tproxy_tuple) (udp : Bool) (port : Nat) : Decidable (has_cover E udp port) :=
  inferInstanceAs (Decidable (∃ pos, pos < active_len E udp ∧ covers E udp pos port))

/-- Position `pos` is the lowest active index position whose range covers the port. -/
def first_cover (E : tproxy_tuple) (udp : Bool) (port pos : Nat) : Prop :=
  pos < active_len E udp ∧ covers E udp pos port ∧ ∀ q, q < pos → ¬ covers E udp q port

/-- What the program does once the range at position `pos` of entry `E` is hit. -/
def range_hit (env : Env) (E : tproxy_tuple) (udp : Bool) (pos : Nat) : Outcome :=
  if udp then udp_hit env (E.udp_mapping (port_key_at E udp pos))
  else tcp_hit env (E.tcp_mapping (port_key_at E udp pos))

/-- The step is a read of the rule table or of one of an entry's arrays. -/
def Event.is_table_read : Event → Bool
  | Event.get_tproxy _ => true
  | Event.read_index _ _ => true
  | Event.read_mapping _ _ => true
  | _ => false

/-- The step is a socket lookup. -/
def Event.is_socket_lookup : Event → Bool
  | Event.skc_lookup_tcp _ _ => true
  | Event.sk_lookup_udp _ _ => true
  | _ => false

/-- The key of a rule-table lookup step. -/
def Event.tproxy_key : Event → Option tproxy_key
  | Event.get_tproxy key => some key
  | _ => none

/-- The socket lookups of a trace, in order. -/
def socket_lookups (trace : List Event) : List Event :=
  trace.filter Event.is_socket_lookup

/-- The keys looked up in the rule table, in order. -/
def tproxy_lookups (trace : List Event) : List tproxy_key :=
  trace.filterMap Event.tproxy_key

/-- The socket lookup the program makes for a target. -/
def target_lookup (env : Env) (udp : Bool) (target : bpf_sock_tuple) : Event :=
  if udp then Event.sk_lookup_udp target (env.bpf_sk_lookup_udp target)
  else Event.skc_lookup_tcp target (env.bpf_skc_lookup_tcp target)

/-- The lookup of iteration `i` of the main loop. -/
def iter_body (env : Env) (tuple : bpf_sock_tuple) (udp : Bool) (i : Nat) :
    Option Outcome × List Event :=
  lookup_body env tuple udp ⟨tuple.daddr &&& (loop_state i).1, maxlen - i, 0⟩

/-- The steps of the first `k` iterations of the main loop. -/
def pre_steps (env : Env) (tuple : bpf_sock_tuple) (udp : Bool) : Nat → List Event
  | 0 => []
  | k + 1 => pre_steps env tuple udp k ++ (iter_body env tuple udp k).2

/-- The port key found by the scan of the protocol's index table. -/
def scan_first (E : tproxy_tuple) (udp : Bool) (t : bpf_sock_tuple) (l : List Nat) : Option Nat :=
  if udp then (udp_scan E t l).1 else (tcp_scan E t l).1

/-- The array reads of the scan of the protocol's index table. -/
def scan_reads (E : tproxy_tuple) (udp : Bool) (t : bpf_sock_tuple) (l : List Nat) : List Event :=
  if udp then (udp_scan E t l).2 else (tcp_scan E t l).2

/-- Some entry keyed at prefix length `p` of the destination address holds an
active range of the protocol covering the destination port. -/
def prefix_hit (env : Env) (t : bpf_sock_tuple) (udp : Bool) (p : Nat) : Prop :=
  ∃ E, env.zt_tproxy_map (prefix_key t.daddr p) = some E ∧ has_cover E udp (bpf_ntohs t.dport)

/-- The 4-tuple of the frame. -/
def tuple_of (skb : sk_buff) : bpf_sock_tuple := ⟨skb.saddr, skb.daddr, skb.sport, skb.dport⟩

/-- The udp flag get_tuple sets for an IPv4 frame without options. -/
def is_udp (skb : sk_buff) : Bool := decide (skb.protocol = IPPROTO_UDP)

/-- The tcp flag get_tuple sets for an IPv4 frame without options. -/
def is_tcp (skb : sk_buff) : Bool := decide (skb.protocol = IPPROTO_TCP)

/-- A well-formed IPv4 TCP or UDP packet: EtherType IPv4, header without
options, protocol TCP or UDP, and the 4-tuple within the frame. -/
def well_formed (skb : sk_buff) : Prop :=
  ETH_HLEN + IPHDR_SADDR_OFF + TUPLE_IPV4_SIZE ≤ skb.len ∧ skb.h_proto = bpf_htons ETH_P_IP ∧
    skb.ihl = 5 ∧ (skb.protocol = IPPROTO_TCP ∨ skb.protocol = IPPROTO_UDP)

instance (skb : sk_buff) : Decidable (well_formed skb) :=
  inferInstanceAs (Decidable (_ ∧ _))

/-- The test of source lines 365-366 (UDP) and 393 (TCP) at the single index
position `pos`: the scan run on that position alone finds a range. -/
def range_test (E : tproxy_tuple) (udp : Bool) (t : bpf_sock_tuple) (pos : Nat) : Bool :=
  (scan_first E udp t [pos]).isSome

/-- The packet is taken by the port-22 rule of source lines 287-299. -/
def ssh_bypass (env : Env) (skb : sk_buff) : Prop :=
  ssh_pass (get_local_ip4 env skb.ingress_ifindex) (tuple_of skb) (is_tcp skb) = true

/-- The packet is taken by the DHCP rule of source lines 302-304. -/
def dhcp_bypass (skb : sk_buff) : Prop :=
  skb.protocol = IPPROTO_UDP ∧ bpf_ntohs skb.sport = 67

/-- The flow is locally owned: the TCP lookup of the packet's 4-tuple returns a
socket that is not listening, or the UDP lookup returns a socket with a
non-zero peer address. -/
def locally_owned (env : Env) (skb : sk_buff) : Prop :=
  (skb.protocol = IPPROTO_TCP ∧
      ∃ sk, env.bpf_skc_lookup_tcp (tuple_of skb) = some sk ∧ sk.state ≠ BPF_TCP_LISTEN) ∨
    (skb.protocol = IPPROTO_UDP ∧
      ∃ sk, env.bpf_sk_lookup_udp (tuple_of skb) = some sk ∧ sk.dst_ip4 ≠ 0)

/-- The steps of bpf_sk_splice before the main loop, for a packet that reaches it. -/
def origin_steps (env : Env) (skb : sk_buff) : List Event :=
  Event.get_local_ip4 skb.ingress_ifindex ::
    ((tcp_origin env (is_tcp skb) (tuple_of skb)).2 ++
      (udp_origin env (is_udp skb) (tuple_of skb)).2)

instance (env : Env) (skb : sk_buff) : Decidable (ssh_bypass env skb) :=
  inferInstanceAs (Decidable (_ = true))

instance (skb : sk_buff) : Decidable (dhcp_bypass skb) :=
  inferInstanceAs (Decidable (_ ∧ _))

/-- The result of the socket lookup the program makes for a target. -/
def socket_at (env : Env) (udp : Bool) (target : bpf_sock_tuple) : Option bpf_sock :=
  if udp then env.bpf_sk_lookup_udp target else env.bpf_skc_lookup_tcp target

/-- The rule table without the entry at `key`. -/
def Env.without (env : Env) (key : tproxy_key) : Env :=
  { env with zt_tproxy_map := fun k => if k = key then none else env.zt_tproxy_map k }

/-- What an evaluation shows of the search: the verdict, the socket lookups and
the keys looked up in the rule table. -/
def Outcome.summary (o : Outcome) : Int × List Event × List tproxy_key :=
  (o.verdict, socket_lookups o.trace, tproxy_lookups o.trace)

/-- The array read of the step stays inside the array: an index-table read
below MAX_INDEX_ENTRIES, a mapping read below MAX_TABLE_SIZE. -/
def Event.in_bounds : Event → Bool
  | Event.read_index _ index => decide (index < MAX_INDEX_ENTRIES)
  | Event.read_mapping _ port_key => decide (port_key < MAX_TABLE_SIZE)
  | _ => true

/-- The entry with both stored index lengths cut down to MAX_INDEX_ENTRIES. -/
def tproxy_tuple.clamp (E : tproxy_tuple) : tproxy_tuple :=
  { E with
    udp_index_len := min E.udp_index_len MAX_INDEX_ENTRIES,
    tcp_index_len := min E.tcp_index_len MAX_INDEX_ENTRIES }

/-- The rule table with the entry at `key` set to `E`. -/
def Env.with_entry (env : Env) (key : tproxy_key) (E : tproxy_tuple) : Env :=
  { env with zt_tproxy_map := fun k => if k = key then some E else env.zt_tproxy_map k }

/-- The mask with which the main loop builds the key of prefix length `p`:
the mask at the start of iteration 32 - p. -/
def code_mask (p : Nat) : Nat := (loop_state (32 - p)).1

/-- Number of bits set in a 32-bit word. -/
def popcount32 (x : Nat) : Nat := ((List.range 32).filter (fun b => x.testBit b)).length

/-- The mask formula of the specification's design notes, as a 32-bit word:
0xFFFFFFFF << (32 - prefix_length). -/
def shl_mask (p : Nat) : Nat := (0xffffffff <<< (32 - p)) % 2 ^ 32

/-- The search of the specification's section 4.3 with the mask given by a
closed form `mask_of`: the prefix lengths are tried in the order of the list,
the first range hit ends the search, and the verdict is DROP when the list is
used up. -/
def closed_form_search (mask_of : Nat → Nat) (env : Env) (t : bpf_sock_tuple) (udp : Bool) :
    List Nat → Outcome
  | [] => ⟨TC_ACT_SHOT, []⟩
  | p :: rest =>
    match lookup_body env t udp ⟨t.daddr &&& mask_of p, p, 0⟩ with
    | (some out, steps) => out.after steps
    | (none, steps) => (closed_form_search mask_of env t udp rest).after steps

/-- The prefix lengths 32, 31, ..., 1. -/
def prefix_lengths_to_one : List Nat := (List.range 32).map (fun j => 32 - j)

/-- The prefix lengths 32, 31, ..., 0. -/
def prefix_lengths_to_zero : List Nat := (List.range 33).map (fun j => 32 - j)

/-- The effect of one step on the socket references held: a successful lookup
adds its reference, a release removes one held reference, a bind needs a held
reference; none when a reference that is not held is released or bound. -/
def refs_step (held : List bpf_sock) : Event → Option (List bpf_sock)
  | Event.skc_lookup_tcp _ (some sk) => some (sk :: held)
  | Event.sk_lookup_udp _ (some sk) => some (sk :: held)
  | Event.sk_release sk => if sk ∈ held then some (held.erase sk) else none
  | Event.sk_assign sk _ => if sk ∈ held then some held else none
  | _ => some held

/-- The references held after a trace, starting from `held`; none when some
step releases or binds a reference that is not held at that point. -/
def refs_run : List Event → List bpf_sock → Option (List bpf_sock)
  | [], held => some held
  | e :: rest, held => (refs_step held e).bind (refs_run rest)

/-- The step is a socket lookup that returned a reference. -/
def Event.is_successful_lookup : Event → Bool
  | Event.skc_lookup_tcp _ (some _) => true
  | Event.sk_lookup_udp _ (some _) => true
  | _ => false

/-- The step is a release of a socket reference. -/
def Event.is_release : Event → Bool
  | Event.sk_release _ => true
  | _ => false

/-- Number of socket lookups of a trace that returned a reference. -/
def successful_lookups (trace : List Event) : Nat :=
  (trace.filter Event.is_successful_lookup).length

/-- Number of releases of a trace. -/
def releases (trace : List Event) : Nat := (trace.filter Event.is_release).length

/-! ## Tables and packets of the examples -/

/-- An entry with no UDP range and one active TCP range 8080-8090 whose target
is 127.0.0.1:9000. -/
def entry_8080 : tproxy_tuple :=
  { dst_ip := 0, src_ip := 0, udp_index_len := 0, tcp_index_len := 1,
    udp_index_table := fun _ => 0,
    tcp_index_table := fun _ => bpf_htons 8080,
    udp_mapping := fun _ => ⟨0, 0, 0, 0⟩,
    tcp_mapping := fun port_key =>
      if port_key = bpf_htons 8080 then ⟨bpf_htons 8080, bpf_htons 8090, bpf_htons 9000, 0x0100007f⟩
      else ⟨0, 0, 0, 0⟩ }

/-- An entry with no UDP range and one active TCP range 1-65535 whose target is
127.0.0.1:7000. -/
def entry_wide : tproxy_tuple :=
  { dst_ip := 0, src_ip := 0, udp_index_len := 0, tcp_index_len := 1,
    udp_index_table := fun _ => 0,
    tcp_index_table := fun _ => bpf_htons 1,
    udp_mapping := fun _ => ⟨0, 0, 0, 0⟩,
    tcp_mapping := fun port_key =>
      if port_key = bpf_htons 1 then ⟨bpf_htons 1, bpf_htons 65535, bpf_htons 7000, 0x0100007f⟩
      else ⟨0, 0, 0, 0⟩ }

/-- Rule table 10.0.0.0/24 -> entry_8080 and 10.0.0.0/16 -> entry_wide, no
interface address, listening sockets at 127.0.0.1:9000 and 127.0.0.1:7000, and
a bind that succeeds. -/
def env_two_rules : Env :=
  { ifindex_ip_map := fun _ => none,
    zt_tproxy_map := fun key =>
      if key = ⟨0x0000000a, 24, 0⟩ then some entry_8080
      else if key = ⟨0x0000000a, 16, 0⟩ then some entry_wide
      else none,
    bpf_skc_lookup_tcp := fun t =>
      if t = ⟨0, 0x0100007f, 0, bpf_htons 9000⟩ then some ⟨1, BPF_TCP_LISTEN, 0⟩
      else if t = ⟨0, 0x0100007f, 0, bpf_htons 7000⟩ then some ⟨2, BPF_TCP_LISTEN, 0⟩
      else none,
    bpf_sk_lookup_udp := fun _ => none,
    bpf_sk_assign := fun _ => 0 }

/-- Rule table 0.0.0.0/0 -> entry_wide only, listening socket at 127.0.0.1:7000. -/
def env_default_rule : Env :=
  { ifindex_ip_map := fun _ => none,
    zt_tproxy_map := fun key => if key = ⟨0, 0, 0⟩ then some entry_wide else none,
    bpf_skc_lookup_tcp := fun t =>
      if t = ⟨0, 0x0100007f, 0, bpf_htons 7000⟩ then some ⟨2, BPF_TCP_LISTEN, 0⟩ else none,
    bpf_sk_lookup_udp := fun _ => none,
    bpf_sk_assign := fun _ => 0 }

/-- The 4-tuple of a packet from 11.0.0.1:40000 to 10.0.0.5:8085. -/
def tuple_8085 : bpf_sock_tuple := ⟨0x0100000b, 0x0500000a, bpf_htons 40000, bpf_htons 8085⟩

/-- The 4-tuple of a packet from 11.0.0.1:40000 to 192.168.1.7:443. -/
def tuple_443 : bpf_sock_tuple := ⟨0x0100000b, 0x0701a8c0, bpf_htons 40000, bpf_htons 443⟩

/-- An Ethernet frame carrying an IPv6 packet. -/
def ipv6_frame : sk_buff := ⟨74, bpf_htons ETH_P_IPV6, 0, 0, 0, 0, 0, 0, 3⟩

/-- A TCP packet from 11.0.0.1:40000 to 10.0.0.5:22 whose IPv4 header carries
one option word (ihl = 6). -/
def options_frame : sk_buff :=
  ⟨78, bpf_htons ETH_P_IP, 6, IPPROTO_TCP, 0x0100000b, 0x0500000a, bpf_htons 40000,
    bpf_htons 22, 3⟩

/-- A TCP packet from 11.0.0.1:40000 to 10.0.0.5:22. -/
def ssh_frame : sk_buff :=
  ⟨74, bpf_htons ETH_P_IP, 5, IPPROTO_TCP, 0x0100000b, 0x0500000a, bpf_htons 40000,
    bpf_htons 22, 3⟩

/-- Empty tables, no socket, and a bind that succeeds. -/
def env_empty : Env :=
  { ifindex_ip_map := fun _ => none,
    zt_tproxy_map := fun _ => none,
    bpf_skc_lookup_tcp := fun _ => none,
    bpf_sk_lookup_udp := fun _ => none,
    bpf_sk_assign := fun _ => 0 }

/-- The 4-tuple of a packet from 11.0.0.1:40000 to 10.0.0.5:8080. -/
def tuple_8080 : bpf_sock_tuple := ⟨0x0100000b, 0x0500000a, bpf_htons 40000, bpf_htons 8080⟩

/-- A TCP packet from 11.0.0.1:40000 to 10.0.0.5:8085. -/
def frame_8085 : sk_buff :=
  ⟨74, bpf_htons ETH_P_IP, 5, IPPROTO_TCP, 0x0100000b, 0x0500000a, bpf_htons 40000,
    bpf_htons 8085, 3⟩

/-- The two-rule table, with an established TCP socket for the flow
11.0.0.1:40000 -> 10.0.0.5:8085 (state 1, not listening). -/
def env_owned : Env :=
  { env_two_rules with
    bpf_skc_lookup_tcp := fun t =>
      if t = ⟨0x0100000b, 0x0500000a, bpf_htons 40000, bpf_htons 8085⟩ then some ⟨7, 1, 0x0100000b⟩
      else env_two_rules.bpf_skc_lookup_tcp t }

/-- Rule table 10.0.0.0/24 -> entry_8080 only, a listening socket at
127.0.0.1:9000 and a bind that succeeds. -/
def env_one_rule : Env :=
  { ifindex_ip_map := fun _ => none,
    zt_tproxy_map := fun key => if key = ⟨0x0000000a, 24, 0⟩ then some entry_8080 else none,
    bpf_skc_lookup_tcp := fun t =>
      if t = ⟨0, 0x0100007f, 0, bpf_htons 9000⟩ then some ⟨1, BPF_TCP_LISTEN, 0⟩ else none,
    bpf_sk_lookup_udp := fun _ => none,
    bpf_sk_assign := fun _ => 0 }

/-- The 4-tuple of a packet from 11.0.0.1:40000 to 10.0.0.5:9999. -/
def tuple_9999 : bpf_sock_tuple := ⟨0x0100000b, 0x0500000a, bpf_htons 40000, bpf_htons 9999⟩

/-- Empty rule table, interface 3 registered with address 192.168.1.1, no socket. -/
def env_iface3 : Env :=
  { env_empty with
    ifindex_ip_map := fun key => if key = 3 then some ⟨0x0101a8c0, 3⟩ else none }

/-- A TCP packet from 11.0.0.1:40000 to 192.168.1.1:22 arriving on interface 3. -/
def ssh_frame_registered : sk_buff :=
  ⟨74, bpf_htons ETH_P_IP, 5, IPPROTO_TCP, 0x0100000b, 0x0101a8c0, bpf_htons 40000,
    bpf_htons 22, 3⟩

/-- A TCP packet from 11.0.0.1:40000 to 192.168.1.2:22 arriving on interface 3. -/
def ssh_frame_other : sk_buff :=
  ⟨74, bpf_htons ETH_P_IP, 5, IPPROTO_TCP, 0x0100000b, 0x0201a8c0, bpf_htons 40000,
    bpf_htons 22, 3⟩

/-- A UDP packet from 11.0.0.1:40000 to 192.168.1.1:22 arriving on interface 3. -/
def udp22_frame_registered : sk_buff :=
  ⟨74, bpf_htons ETH_P_IP, 5, IPPROTO_UDP, 0x0100000b, 0x0101a8c0, bpf_htons 40000,
    bpf_htons 22, 3⟩

/-- A UDP packet from 10.0.0.1:67 to 10.0.0.5:8085 (a DHCP server reply port). -/
def dhcp_frame : sk_buff :=
  ⟨74, bpf_htons ETH_P_IP, 5, IPPROTO_UDP, 0x0100000a, 0x0500000a, bpf_htons 67,
    bpf_htons 8085, 3⟩

/-- An Ethernet frame carrying an ARP packet. -/
def arp_frame : sk_buff := ⟨42, bpf_htons ETH_P_ARP, 0, 0, 0, 0, 0, 0, 3⟩

/-- An IPv4 ICMP packet (protocol 1) from 11.0.0.1 to 10.0.0.5. -/
def icmp_frame : sk_buff :=
  ⟨74, bpf_htons ETH_P_IP, 5, 1, 0x0100000b, 0x0500000a, 0, 0, 3⟩

/-- A frame cut after 10 bytes of the Ethernet header. -/
def runt_frame : sk_buff := ⟨10, bpf_htons ETH_P_IP, 5, IPPROTO_TCP, 0, 0, 0, 0, 3⟩

/-- A TCP packet to 10.0.0.5:22 cut after the IPv4 header and two bytes of
the ports (36 bytes). -/
def short_tuple_frame : sk_buff :=
  ⟨36, bpf_htons ETH_P_IP, 5, IPPROTO_TCP, 0x0100000b, 0x0500000a, bpf_htons 40000,
    bpf_htons 22, 3⟩

/-- The entry entry_8080 with a stored TCP index length of 40. -/
def entry_overlong : tproxy_tuple := { entry_8080 with tcp_index_len := 40 }

/-- Rule table 10.0.0.0/24 -> entry_overlong, otherwise as env_one_rule. -/
def env_overlong : Env :=
  { env_one_rule with
    zt_tproxy_map := fun key => if key = ⟨0x0000000a, 24, 0⟩ then some entry_overlong else none }

/-- A TCP packet from 11.0.0.1:40000 to 10.0.0.5:9999. -/
def frame_9999 : sk_buff :=
  ⟨74, bpf_htons ETH_P_IP, 5, IPPROTO_TCP, 0x0100000b, 0x0500000a, bpf_htons 40000,
    bpf_htons 9999, 3⟩

/-- An entry with two active TCP ranges that overlap: position 0 holds
8000-9000 with target 127.0.0.1:7001, position 1 holds 8080-8090 with target
127.0.0.1:7002. -/
def entry_overlap : tproxy_tuple :=
  { dst_ip := 0, src_ip := 0, udp_index_len := 0, tcp_index_len := 2,
    udp_index_table := fun _ => 0,
    tcp_index_table := fun index => if index = 0 then bpf_htons 8000 else bpf_htons 8080,
    udp_mapping := fun _ => ⟨0, 0, 0, 0⟩,
    tcp_mapping := fun port_key =>
      if port_key = bpf_htons 8000 then ⟨bpf_htons 8000, bpf_htons 9000, bpf_htons 7001, 0x0100007f⟩
      else if port_key = bpf_htons 8080 then
        ⟨bpf_htons 8080, bpf_htons 8090, bpf_htons 7002, 0x0100007f⟩
      else ⟨0, 0, 0, 0⟩ }

/-- Rule table 10.0.0.0/24 -> entry_overlap, no socket. -/
def env_overlap : Env :=
  { env_empty with
    zt_tproxy_map := fun key => if key = ⟨0x0000000a, 24, 0⟩ then some entry_overlap else none }

/-! ## The mask arithmetic -/

theorem loop_state_mask : ∀ i, i ≤ 32 → (loop_state i).1 = cidr_mask (32 - i) := by
  decide

theorem loop_state_not_stop : ∀ i, i < 31 → (loop_state i).1 ≠ 0x00000080 := by
  decide

theorem loop_state_stop : (loop_state 31).1 = 0x00000080 := by
  decide

/-- In the iterations the loop runs, the shift of source lines 427-433 is by
less than 32 bits and the subtraction does not wrap. -/
theorem loop_state_in_range :
    ∀ i, i < 31 →
      next_exponent (loop_state i).1 (loop_state i).2 < 32 ∧
        1 <<< next_exponent (loop_state i).1 (loop_state i).2 ≤ (loop_state i).1 ∧
        (loop_state i).1 < 2 ^ 32 := by
  decide

/-! ## The port-range scan -/

theorem covers_udp_iff (E : tproxy_tuple) (t : bpf_sock_tuple) (pos : Nat) :
    covers E true pos (bpf_ntohs t.dport) ↔
      (bpf_ntohs t.dport ≥ bpf_ntohs (E.udp_mapping (E.udp_index_table pos % 2 ^ 16)).low_port
        ∧ bpf_ntohs t.dport ≤ bpf_ntohs (E.udp_mapping (E.udp_index_table pos % 2 ^ 16)).high_port) := by
  simp [covers, range_lo, range_hi, port_key_at]

theorem covers_tcp_iff (E : tproxy_tuple) (t : bpf_sock_tuple) (pos : Nat) :
    covers E false pos (bpf_ntohs t.dport) ↔
      (bpf_ntohs t.dport ≥ bpf_ntohs (E.tcp_mapping (E.tcp_index_table pos % 2 ^ 16)).low_port
        ∧ bpf_ntohs t.dport ≤ bpf_ntohs (E.tcp_mapping (E.tcp_index_table pos % 2 ^ 16)).high_port) := by
  simp [covers, range_lo, range_hi, port_key_at]

theorem scan_first_nil (E : tproxy_tuple) (udp : Bool) (t : bpf_sock_tuple) :
    scan_first E udp t [] = none := by
  cases udp <;> simp [scan_first, udp_scan, tcp_scan]

theorem scan_first_cons (E : tproxy_tuple) (udp : Bool) (t : bpf_sock_tuple) (index : Nat)
    (rest : List Nat) :
    scan_first E udp t (index :: rest) =
      if covers E udp index (bpf_ntohs t.dport) then some (port_key_at E udp index)
      else scan_first E udp t rest := by
  cases udp
  · by_cases h : covers E false index (bpf_ntohs t.dport)
    · have h1 := (covers_tcp_iff E t index).1 h
      simp only [scan_first, tcp_scan, port_key_at, Bool.false_eq_true, if_false]
      rw [if_pos h1, if_pos h]
    · have h1 := fun c => h ((covers_tcp_iff E t index).2 c)
      simp only [scan_first, tcp_scan, port_key_at, Bool.false_eq_true, if_false]
      rw [if_neg h1, if_neg h]
  · by_cases h : covers E true index (bpf_ntohs t.dport)
    · have h1 := (covers_udp_iff E t index).1 h
      simp only [scan_first, udp_scan, port_key_at, if_true]
      rw [if_pos h1, if_pos h]
    · have h1 := fun c => h ((covers_udp_iff E t index).2 c)
      simp only [scan_first, udp_scan, port_key_at, if_true]
      rw [if_neg h1, if_neg h]

theorem scan_reads_table (E : tproxy_tuple) (udp : Bool) (t : bpf_sock_tuple) (l : List Nat) :
    ∀ e, e ∈ scan_reads E udp t l → e.is_table_read = true := by
  induction l with
  | nil => cases udp <;> simp [scan_reads, udp_scan, tcp_scan]
  | cons index rest ih =>
    cases udp
    · simp only [scan_reads, Bool.false_eq_true, if_false] at ih ⊢
      simp only [tcp_scan]
      split
      · simp [Event.is_table_read]
      · intro e he
        simp only [List.mem_append, List.mem_cons, List.mem_singleton, List.not_mem_nil,
          or_false] at he
        rcases he with (rfl | rfl) | he
        · rfl
        · rfl
        · exact ih e he
    · simp only [scan_reads, if_true] at ih ⊢
      simp only [udp_scan]
      split
      · simp [Event.is_table_read]
      · intro e he
        simp only [List.mem_append, List.mem_cons, List.mem_singleton, List.not_mem_nil,
          or_false] at he
        rcases he with (rfl | rfl) | he
        · rfl
        · rfl
        · exact ih e he

theorem scan_first_none (E : tproxy_tuple) (udp : Bool) (t : bpf_sock_tuple) :
    ∀ n s, (∀ pos, s ≤ pos → pos < s + n → ¬ covers E udp pos (bpf_ntohs t.dport)) →
      scan_first E udp t (List.range' s n) = none := by
  intro n
  induction n with
  | zero => intro s _; simp [scan_first_nil]
  | succ n ih =>
    intro s h
    rw [List.range'_succ, scan_first_cons, if_neg (h s (Nat.le_refl s) (by omega))]
    exact ih (s + 1) (fun pos h1 h2 => h pos (by omega) (by omega))

theorem scan_first_some (E : tproxy_tuple) (udp : Bool) (t : bpf_sock_tuple) :
    ∀ n s pos, s ≤ pos → pos < s + n → covers E udp pos (bpf_ntohs t.dport) →
      (∀ q, s ≤ q → q < pos → ¬ covers E udp q (bpf_ntohs t.dport)) →
      scan_first E udp t (List.range' s n) = some (port_key_at E udp pos) := by
  intro n
  induction n with
  | zero => intro s pos h1 h2; omega
  | succ n ih =>
    intro s pos h1 h2 hc hfirst
    rw [List.range'_succ, scan_first_cons]
    by_cases hs : s = pos
    · subst hs
      rw [if_pos hc]
    · rw [if_neg (hfirst s (Nat.le_refl s) (by omega))]
      exact ih (s + 1) pos (by omega) (by omega) hc (fun q h3 h4 => hfirst q (by omega) h4)

theorem has_cover_first (E : tproxy_tuple) (udp : Bool) (port : Nat)
    (h : has_cover E udp port) : ∃ pos, first_cover E udp port pos := by
  classical
  refine ⟨Nat.find h, (Nat.find_spec h).1, (Nat.find_spec h).2, ?_⟩
  intro q hq hc
  exact Nat.find_min h hq ⟨lt_trans hq (Nat.find_spec h).1, hc⟩

theorem first_cover_unique (E : tproxy_tuple) (udp : Bool) (port a b : Nat)
    (ha : first_cover E udp port a) (hb : first_cover E udp port b) : a = b := by
  rcases Nat.lt_trichotomy a b with h | h | h
  · exact absurd ha.2.1 (hb.2.2 a h)
  · exact h
  · exact absurd hb.2.1 (ha.2.2 b h)

/-! ## One lookup of the main loop -/

theorem lookup_body_eq (env : Env) (t : bpf_sock_tuple) (udp : Bool) (key : tproxy_key)
    (E : tproxy_tuple) (hE : env.zt_tproxy_map key = some E) :
    lookup_body env t udp key =
      (match scan_first E udp t (List.range (active_len E udp)) with
        | some port_key =>
          some (if udp then udp_hit env (E.udp_mapping port_key)
            else tcp_hit env (E.tcp_mapping port_key))
        | none => none,
        Event.get_tproxy key :: scan_reads E udp t (List.range (active_len E udp))) := by
  have hlen : ∀ n : Nat, (if n > MAX_INDEX_ENTRIES then MAX_INDEX_ENTRIES else n)
      = min n MAX_INDEX_ENTRIES := by
    intro n
    simp only [MAX_INDEX_ENTRIES]
    split <;> omega
  cases udp
  · simp only [lookup_body, get_tproxy, hE, hlen, scan_first, scan_reads, active_len,
      Bool.false_eq_true, if_false]
    split <;> simp_all
  · simp only [lookup_body, get_tproxy, hE, hlen, scan_first, scan_reads, active_len, if_true]
    split <;> simp_all

theorem lookup_body_absent (env : Env) (t : bpf_sock_tuple) (udp : Bool) (key : tproxy_key)
    (h : env.zt_tproxy_map key = none) :
    lookup_body env t udp key = (none, [Event.get_tproxy key]) := by
  simp [lookup_body, get_tproxy, h]

theorem lookup_body_miss (env : Env) (t : bpf_sock_tuple) (udp : Bool) (key : tproxy_key)
    (E : tproxy_tuple) (hE : env.zt_tproxy_map key = some E)
    (h : ¬ has_cover E udp (bpf_ntohs t.dport)) :
    (lookup_body env t udp key).1 = none := by
  rw [lookup_body_eq env t udp key E hE, List.range_eq_range',
    scan_first_none E udp t (active_len E udp) 0
      (fun pos _ h2 hc => h ⟨pos, by omega, hc⟩)]

theorem lookup_body_hit (env : Env) (t : bpf_sock_tuple) (udp : Bool) (key : tproxy_key)
    (E : tproxy_tuple) (pos : Nat) (hE : env.zt_tproxy_map key = some E)
    (h : first_cover E udp (bpf_ntohs t.dport) pos) :
    (lookup_body env t udp key).1 = some (range_hit env E udp pos) := by
  rw [lookup_body_eq env t udp key E hE, List.range_eq_range',
    scan_first_some E udp t (active_len E udp) 0 pos (Nat.zero_le _) (by have := h.1; omega)
      h.2.1 (fun q _ hq => h.2.2 q hq)]
  rfl

theorem lookup_body_reads (env : Env) (t : bpf_sock_tuple) (udp : Bool) (key : tproxy_key) :
    ∀ e, e ∈ (lookup_body env t udp key).2 → e.is_table_read = true := by
  intro e he
  cases hE : env.zt_tproxy_map key with
  | none =>
    rw [lookup_body_absent env t udp key hE] at he
    simp only [List.mem_singleton] at he
    subst he
    rfl
  | some E =>
    rw [lookup_body_eq env t udp key E hE] at he
    simp only [List.mem_cons] at he
    rcases he with rfl | he
    · rfl
    · exact scan_reads_table E udp t _ e he

theorem scan_reads_keys (E : tproxy_tuple) (udp : Bool) (t : bpf_sock_tuple) (l : List Nat) :
    tproxy_lookups (scan_reads E udp t l) = [] := by
  unfold tproxy_lookups
  rw [List.filterMap_eq_nil_iff]
  intro e he
  induction l with
  | nil => cases udp <;> simp [scan_reads, udp_scan, tcp_scan] at he
  | cons index rest ih =>
    cases udp
    · simp only [scan_reads, Bool.false_eq_true, if_false] at ih he
      simp only [tcp_scan] at he
      split at he
      · simp only [List.mem_cons, List.mem_singleton, List.not_mem_nil, or_false] at he
        rcases he with rfl | rfl <;> rfl
      · simp only [List.mem_append, List.mem_cons, List.mem_singleton, List.not_mem_nil,
          or_false] at he
        rcases he with (rfl | rfl) | he
        · rfl
        · rfl
        · exact ih he
    · simp only [scan_reads, if_true] at ih he
      simp only [udp_scan] at he
      split at he
      · simp only [List.mem_cons, List.mem_singleton, List.not_mem_nil, or_false] at he
        rcases he with rfl | rfl <;> rfl
      · simp only [List.mem_append, List.mem_cons, List.mem_singleton, List.not_mem_nil,
          or_false] at he
        rcases he with (rfl | rfl) | he
        · rfl
        · rfl
        · exact ih he

theorem lookup_body_keys (env : Env) (t : bpf_sock_tuple) (udp : Bool) (key : tproxy_key) :
    tproxy_lookups (lookup_body env t udp key).2 = [key] := by
  cases hE : env.zt_tproxy_map key with
  | none =>
    rw [lookup_body_absent env t udp key hE]
    rfl
  | some E =>
    rw [lookup_body_eq env t udp key E hE]
    have := scan_reads_keys E udp t (List.range (active_len E udp))
    simp only [tproxy_lookups] at this ⊢
    simp [List.filterMap_cons, Event.tproxy_key, this]

/-! ## The main loop -/

theorem after_nil (o : Outcome) : o.after [] = o := by
  cases o
  rfl

theorem after_after (a b : List Event) (o : Outcome) :
    (o.after b).after a = o.after (a ++ b) := by
  simp [Outcome.after, List.append_assoc]

theorem main_loop_cons_hit (env : Env) (t : bpf_sock_tuple) (udp : Bool) (count : Nat)
    (rest : List Nat) (mask exponent : Nat) (out : Outcome)
    (h : (lookup_body env t udp ⟨t.daddr &&& mask, maxlen - count, 0⟩).1 = some out) :
    main_loop env t udp (count :: rest) mask exponent =
      out.after (lookup_body env t udp ⟨t.daddr &&& mask, maxlen - count, 0⟩).2 := by
  rw [main_loop]
  generalize lookup_body env t udp ⟨t.daddr &&& mask, maxlen - count, 0⟩ = r at h ⊢
  obtain ⟨r1, r2⟩ := r
  simp only at h
  subst h
  rfl

theorem main_loop_cons_stop (env : Env) (t : bpf_sock_tuple) (udp : Bool) (count : Nat)
    (rest : List Nat) (mask exponent : Nat)
    (h : (lookup_body env t udp ⟨t.daddr &&& mask, maxlen - count, 0⟩).1 = none)
    (hm : mask = 0x00000080) :
    main_loop env t udp (count :: rest) mask exponent =
      ⟨TC_ACT_SHOT, (lookup_body env t udp ⟨t.daddr &&& mask, maxlen - count, 0⟩).2⟩ := by
  rw [main_loop]
  generalize lookup_body env t udp ⟨t.daddr &&& mask, maxlen - count, 0⟩ = r at h ⊢
  obtain ⟨r1, r2⟩ := r
  simp only at h
  subst h
  simp [hm]

theorem main_loop_cons_next (env : Env) (t : bpf_sock_tuple) (udp : Bool) (count : Nat)
    (rest : List Nat) (mask exponent : Nat)
    (h : (lookup_body env t udp ⟨t.daddr &&& mask, maxlen - count, 0⟩).1 = none)
    (hm : mask ≠ 0x00000080) :
    main_loop env t udp (count :: rest) mask exponent =
      (main_loop env t udp rest (next_mask mask (next_exponent mask exponent))
        (next_exponent mask exponent + 1)).after
        (lookup_body env t udp ⟨t.daddr &&& mask, maxlen - count, 0⟩).2 := by
  rw [main_loop]
  generalize lookup_body env t udp ⟨t.daddr &&& mask, maxlen - count, 0⟩ = r at h ⊢
  obtain ⟨r1, r2⟩ := r
  simp only at h
  subst h
  simp [hm]

theorem matcher_skip (env : Env) (t : bpf_sock_tuple) (udp : Bool) :
    ∀ k, k ≤ 31 → (∀ j, j < k → (iter_body env t udp j).1 = none) →
      matcher env t udp =
        (main_loop env t udp (List.range' k (33 - k)) (loop_state k).1 (loop_state k).2).after
          (pre_steps env t udp k) := by
  intro k
  induction k with
  | zero =>
    intro _ _
    rw [pre_steps, after_nil, matcher, List.range_eq_range']
    rfl
  | succ k ih =>
    intro hk hnone
    rw [ih (by omega) (fun j hj => hnone j (by omega))]
    have h33 : 33 - k = (33 - (k + 1)) + 1 := by omega
    rw [h33, List.range'_succ,
      main_loop_cons_next env t udp k _ _ _ (hnone k (by omega))
        (loop_state_not_stop k (by omega)),
      after_after]
    rfl

theorem matcher_hit (env : Env) (t : bpf_sock_tuple) (udp : Bool) (k : Nat) (out : Outcome)
    (hk : k ≤ 31) (hnone : ∀ j, j < k → (iter_body env t udp j).1 = none)
    (hhit : (iter_body env t udp k).1 = some out) :
    matcher env t udp = out.after (pre_steps env t udp (k + 1)) := by
  rw [matcher_skip env t udp k hk hnone]
  have h33 : 33 - k = (32 - k) + 1 := by omega
  rw [h33, List.range'_succ, main_loop_cons_hit env t udp k _ _ _ out hhit, after_after]
  rfl

theorem matcher_miss (env : Env) (t : bpf_sock_tuple) (udp : Bool)
    (hnone : ∀ j, j ≤ 31 → (iter_body env t udp j).1 = none) :
    matcher env t udp = ⟨TC_ACT_SHOT, pre_steps env t udp 32⟩ := by
  rw [matcher_skip env t udp 31 (Nat.le_refl _) (fun j hj => hnone j (by omega))]
  have h33 : 33 - 31 = 1 + 1 := by omega
  rw [h33, List.range'_succ,
    main_loop_cons_stop env t udp 31 _ _ _ (hnone 31 (Nat.le_refl _)) loop_state_stop]
  rfl

theorem iter_body_eq (env : Env) (t : bpf_sock_tuple) (udp : Bool) (i : Nat) (hi : i ≤ 32) :
    iter_body env t udp i = lookup_body env t udp (prefix_key t.daddr (32 - i)) := by
  unfold iter_body prefix_key
  rw [loop_state_mask i hi]
  rfl

theorem lookup_body_none_iff (env : Env) (t : bpf_sock_tuple) (udp : Bool) (key : tproxy_key) :
    (lookup_body env t udp key).1 = none ↔
      ∀ E, env.zt_tproxy_map key = some E → ¬ has_cover E udp (bpf_ntohs t.dport) := by
  constructor
  · intro h E hE hc
    obtain ⟨pos, hpos⟩ := has_cover_first E udp _ hc
    rw [lookup_body_hit env t udp key E pos hE hpos] at h
    exact Option.some_ne_none _ h
  · intro h
    cases hE : env.zt_tproxy_map key with
    | none => rw [lookup_body_absent env t udp key hE]
    | some E => exact lookup_body_miss env t udp key E hE (h E hE)

theorem iter_body_none_iff (env : Env) (t : bpf_sock_tuple) (udp : Bool) (i : Nat)
    (hi : i ≤ 32) :
    (iter_body env t udp i).1 = none ↔ ¬ prefix_hit env t udp (32 - i) := by
  rw [iter_body_eq env t udp i hi, lookup_body_none_iff]
  constructor
  · rintro h ⟨E, hE, hc⟩
    exact h E hE hc
  · intro h E hE hc
    exact h ⟨E, hE, hc⟩

theorem pre_steps_reads (env : Env) (t : bpf_sock_tuple) (udp : Bool) :
    ∀ k e, e ∈ pre_steps env t udp k → e.is_table_read = true := by
  intro k
  induction k with
  | zero => intro e he; simp [pre_steps] at he
  | succ k ih =>
    intro e he
    rw [pre_steps, List.mem_append] at he
    rcases he with he | he
    · exact ih e he
    · exact lookup_body_reads env t udp _ e he

theorem tproxy_lookups_append (a b : List Event) :
    tproxy_lookups (a ++ b) = tproxy_lookups a ++ tproxy_lookups b := by
  simp [tproxy_lookups, List.filterMap_append]

theorem socket_lookups_append (a b : List Event) :
    socket_lookups (a ++ b) = socket_lookups a ++ socket_lookups b := by
  simp [socket_lookups, List.filter_append]

theorem pre_steps_keys (env : Env) (t : bpf_sock_tuple) (udp : Bool) :
    ∀ k, k ≤ 32 → tproxy_lookups (pre_steps env t udp k) =
      (List.range k).map (fun j => prefix_key t.daddr (32 - j)) := by
  intro k
  induction k with
  | zero => intro _; rfl
  | succ k ih =>
    intro hk
    rw [pre_steps, tproxy_lookups_append, ih (by omega), iter_body_eq env t udp k (by omega),
      lookup_body_keys, List.range_succ, List.map_append]
    rfl

theorem socket_lookups_reads (l : List Event) (h : ∀ e, e ∈ l → e.is_table_read = true) :
    socket_lookups l = [] := by
  unfold socket_lookups
  rw [List.filter_eq_nil_iff]
  intro e he
  have := h e he
  cases e <;> simp_all [Event.is_table_read, Event.is_socket_lookup]

theorem tproxy_lookups_sockets (l : List Event)
    (h : ∀ e, e ∈ l → e.is_table_read = false) : tproxy_lookups l = [] := by
  unfold tproxy_lookups
  rw [List.filterMap_eq_nil_iff]
  intro e he
  have := h e he
  cases e <;> simp_all [Event.is_table_read, Event.tproxy_key]

theorem assign_trace (env : Env) (sk : bpf_sock) :
    (assign env sk).trace = [Event.sk_assign sk (env.bpf_sk_assign sk), Event.sk_release sk] := by
  rfl

theorem range_hit_sockets (env : Env) (E : tproxy_tuple) (udp : Bool) (pos : Nat) :
    socket_lookups (range_hit env E udp pos).trace =
      [target_lookup env udp (range_target E udp pos)] := by
  cases udp
  · simp only [range_hit, tcp_hit, target_lookup, range_target, Bool.false_eq_true, if_false]
    cases h : env.bpf_skc_lookup_tcp _ with
    | none => simp [socket_lookups, Event.is_socket_lookup]
    | some sk =>
      by_cases hs : sk.state = BPF_TCP_LISTEN
      · simp [hs, Outcome.after, assign_trace, socket_lookups, Event.is_socket_lookup]
      · simp [hs, socket_lookups, Event.is_socket_lookup]
  · simp only [range_hit, udp_hit, target_lookup, range_target, if_true]
    cases h : env.bpf_sk_lookup_udp _ with
    | none => simp [socket_lookups, Event.is_socket_lookup]
    | some sk => simp [Outcome.after, assign_trace, socket_lookups, Event.is_socket_lookup]

theorem tcp_hit_no_table_read (env : Env) (m : tproxy_tcp_port_mapping) :
    ∀ e, e ∈ (tcp_hit env m).trace → e.is_table_read = false := by
  intro e he
  simp only [tcp_hit] at he
  split at he
  · simp only [List.mem_singleton] at he
    subst he
    rfl
  · split at he
    · simp only [List.mem_cons, List.mem_singleton, List.not_mem_nil, or_false] at he
      rcases he with rfl | rfl <;> rfl
    · simp only [Outcome.after, assign_trace, List.mem_append, List.mem_cons,
        List.mem_singleton, List.not_mem_nil, or_false] at he
      rcases he with rfl | rfl | rfl <;> rfl

theorem udp_hit_no_table_read (env : Env) (m : tproxy_udp_port_mapping) :
    ∀ e, e ∈ (udp_hit env m).trace → e.is_table_read = false := by
  intro e he
  simp only [udp_hit] at he
  split at he
  · simp only [List.mem_singleton] at he
    subst he
    rfl
  · simp only [Outcome.after, assign_trace, List.mem_append, List.mem_cons,
      List.mem_singleton, List.not_mem_nil, or_false] at he
    rcases he with rfl | rfl | rfl <;> rfl

theorem range_hit_no_table_read (env : Env) (E : tproxy_tuple) (udp : Bool) (pos : Nat) :
    ∀ e, e ∈ (range_hit env E udp pos).trace → e.is_table_read = false := by
  cases udp
  · exact tcp_hit_no_table_read env _
  · exact udp_hit_no_table_read env _

theorem matcher_first_hit (env : Env) (t : bpf_sock_tuple) (udp : Bool) (p : Nat)
    (E : tproxy_tuple) (pos : Nat) (hp1 : 1 ≤ p) (hp : p ≤ 32)
    (hE : env.zt_tproxy_map (prefix_key t.daddr p) = some E)
    (hpos : first_cover E udp (bpf_ntohs t.dport) pos)
    (hlong : ∀ q, p < q → q ≤ 32 → ¬ prefix_hit env t udp q) :
    matcher env t udp = (range_hit env E udp pos).after (pre_steps env t udp (32 - p + 1)) := by
  apply matcher_hit env t udp (32 - p) _ (by omega)
  · intro j hj
    rw [iter_body_none_iff env t udp j (by omega)]
    exact hlong (32 - j) (by omega) (by omega)
  · rw [iter_body_eq env t udp (32 - p) (by omega)]
    have h : 32 - (32 - p) = p := by omega
    rw [h]
    exact lookup_body_hit env t udp _ E pos hE hpos

theorem matcher_no_hit (env : Env) (t : bpf_sock_tuple) (udp : Bool)
    (hmiss : ∀ q, 1 ≤ q → q ≤ 32 → ¬ prefix_hit env t udp q) :
    matcher env t udp = ⟨TC_ACT_SHOT, pre_steps env t udp 32⟩ := by
  apply matcher_miss
  intro j hj
  rw [iter_body_none_iff env t udp j (by omega)]
  exact hmiss (32 - j) (by omega) (by omega)

/-! ## C1: longest-prefix match -/

/-- C1, as amended: for every destination address, protocol and destination
port of a packet that reaches the matcher, if the entry keyed (d & mask(p), p)
for a prefix length p in 1..32 holds an active range of the protocol covering
the destination port and no entry of a longer prefix length up to 32 does, then
the matcher, after table reads only, runs the hit code for the first covering
range of that entry: the one socket lookup of the matcher is for that range's
target. -/
theorem longest_prefix_match (env : Env) (t : bpf_sock_tuple) (udp : Bool) (p : Nat)
    (E : tproxy_tuple) (hp1 : 1 ≤ p) (hp : p ≤ 32)
    (hE : env.zt_tproxy_map (prefix_key t.daddr p) = some E)
    (hcov : has_cover E udp (bpf_ntohs t.dport))
    (hlong : ∀ q, p < q → q ≤ 32 → ¬ prefix_hit env t udp q) :
    ∃ pos, first_cover E udp (bpf_ntohs t.dport) pos ∧
      socket_lookups (matcher env t udp).trace =
        [target_lookup env udp (range_target E udp pos)] ∧
      ∃ pre, (∀ e, e ∈ pre → e.is_table_read = true) ∧
        matcher env t udp = (range_hit env E udp pos).after pre := by
  obtain ⟨pos, hpos⟩ := has_cover_first E udp _ hcov
  have hm := matcher_first_hit env t udp p E pos hp1 hp hE hpos hlong
  refine ⟨pos, hpos, ?_, pre_steps env t udp (32 - p + 1), pre_steps_reads env t udp _, hm⟩
  rw [hm]
  simp only [Outcome.after]
  rw [socket_lookups_append, socket_lookups_reads _ (pre_steps_reads env t udp _),
    range_hit_sockets, List.nil_append]

/-- C1, witness: with 10.0.0.0/24 -> 8080-8090 -> 127.0.0.1:9000 and
10.0.0.0/16 -> 1-65535 -> 127.0.0.1:7000, a TCP packet to 10.0.0.5:8085 is
resolved by the /24 entry. -/
theorem longest_prefix_match_witness :
    ∃ pos, first_cover entry_8080 false (bpf_ntohs tuple_8085.dport) pos ∧
      socket_lookups (matcher env_two_rules tuple_8085 false).trace =
        [target_lookup env_two_rules false (range_target entry_8080 false pos)] ∧
      ∃ pre, (∀ e, e ∈ pre → e.is_table_read = true) ∧
        matcher env_two_rules tuple_8085 false = (range_hit env_two_rules entry_8080 false pos).after pre :=
  longest_prefix_match env_two_rules tuple_8085 false 24 entry_8080 (by decide) (by decide)
    rfl (by decide)
    (by
      rintro q h1 h2 ⟨E, hE, _⟩
      simp only [env_two_rules, prefix_key, tproxy_key.mk.injEq] at hE
      split at hE
      · omega
      · split at hE
        · omega
        · exact Option.noConfusion hE)

/-- C1, counterexample at prefix length 0: the only rule is 0.0.0.0/0 with the
TCP range 1-65535; its key is (d & mask(0), 0), its range covers port 8085 and
no longer prefix has an entry, yet the matcher makes no socket lookup and
drops. -/
theorem longest_prefix_match_fails_at_zero :
    env_default_rule.zt_tproxy_map (prefix_key tuple_8085.daddr 0) = some entry_wide ∧
      has_cover entry_wide false (bpf_ntohs tuple_8085.dport) ∧
      (∀ q, 0 < q → q ≤ 32 → ¬ prefix_hit env_default_rule tuple_8085 false q) ∧
      socket_lookups (matcher env_default_rule tuple_8085 false).trace = [] ∧
      (matcher env_default_rule tuple_8085 false).verdict = TC_ACT_SHOT := by
  refine ⟨rfl, by decide, ?_, by decide, by decide⟩
  rintro q h1 h2 ⟨E, hE, _⟩
  simp only [env_default_rule, prefix_key, tproxy_key.mk.injEq] at hE
  split at hE
  · omega
  · exact Option.noConfusion hE

theorem matcher_cases (env : Env) (t : bpf_sock_tuple) (udp : Bool) :
    (∃ p E pos, 1 ≤ p ∧ p ≤ 32 ∧ env.zt_tproxy_map (prefix_key t.daddr p) = some E ∧
        first_cover E udp (bpf_ntohs t.dport) pos ∧
        (∀ q, p < q → q ≤ 32 → ¬ prefix_hit env t udp q) ∧
        matcher env t udp = (range_hit env E udp pos).after (pre_steps env t udp (32 - p + 1))) ∨
      ((∀ q, 1 ≤ q → q ≤ 32 → ¬ prefix_hit env t udp q) ∧
        matcher env t udp = ⟨TC_ACT_SHOT, pre_steps env t udp 32⟩) := by
  classical
  by_cases h : ∃ q, 1 ≤ q ∧ q ≤ 32 ∧ prefix_hit env t udp q
  · left
    obtain ⟨q0, h1, h2, h3⟩ := h
    have hs : 1 ≤ Nat.findGreatest (fun q => 1 ≤ q ∧ prefix_hit env t udp q) 32 ∧
        prefix_hit env t udp (Nat.findGreatest (fun q => 1 ≤ q ∧ prefix_hit env t udp q) 32) :=
      Nat.findGreatest_spec (P := fun q => 1 ≤ q ∧ prefix_hit env t udp q) h2 ⟨h1, h3⟩
    have hle : Nat.findGreatest (fun q => 1 ≤ q ∧ prefix_hit env t udp q) 32 ≤ 32 :=
      Nat.findGreatest_le 32
    have hgt : ∀ q, Nat.findGreatest (fun q => 1 ≤ q ∧ prefix_hit env t udp q) 32 < q → q ≤ 32 →
        ¬ prefix_hit env t udp q := by
      intro q hq1 hq2 hq3
      exact Nat.findGreatest_is_greatest (P := fun q => 1 ≤ q ∧ prefix_hit env t udp q) hq1 hq2
        ⟨by omega, hq3⟩
    generalize Nat.findGreatest (fun q => 1 ≤ q ∧ prefix_hit env t udp q) 32 = p at hs hle hgt
    obtain ⟨hp1, E, hE, hc⟩ := hs
    obtain ⟨pos, hpos⟩ := has_cover_first E udp _ hc
    exact ⟨p, E, pos, hp1, hle, hE, hpos, hgt,
      matcher_first_hit env t udp p E pos hp1 hle hE hpos hgt⟩
  · right
    have hmiss : ∀ q, 1 ≤ q → q ≤ 32 → ¬ prefix_hit env t udp q :=
      fun q h1 h2 h3 => h ⟨q, h1, h2, h3⟩
    exact ⟨hmiss, matcher_no_hit env t udp hmiss⟩

theorem pre_steps_prefix_len (env : Env) (t : bpf_sock_tuple) (udp : Bool) (k : Nat)
    (hk : k ≤ 32) :
    ∀ key, key ∈ tproxy_lookups (pre_steps env t udp k) →
      32 - k < key.prefix_len ∧ key.prefix_len ≤ 32 := by
  intro key hkey
  rw [pre_steps_keys env t udp k hk, List.mem_map] at hkey
  obtain ⟨j, hj, rfl⟩ := hkey
  rw [List.mem_range] at hj
  simp only [prefix_key]
  omega

theorem matcher_prefix_len (env : Env) (t : bpf_sock_tuple) (udp : Bool) :
    ∀ key, key ∈ tproxy_lookups (matcher env t udp).trace →
      1 ≤ key.prefix_len ∧ key.prefix_len ≤ 32 := by
  intro key hkey
  rcases matcher_cases env t udp with ⟨p, E, pos, hp1, hp, _, _, _, hm⟩ | ⟨_, hm⟩
  · rw [hm] at hkey
    simp only [Outcome.after] at hkey
    rw [tproxy_lookups_append,
      tproxy_lookups_sockets _ (range_hit_no_table_read env E udp pos), List.append_nil] at hkey
    have := pre_steps_prefix_len env t udp (32 - p + 1) (by omega) key hkey
    omega
  · rw [hm] at hkey
    have := pre_steps_prefix_len env t udp 32 (Nat.le_refl _) key hkey
    omega

/-! ## C2: the default rule -/

/-- C2, as amended: for every destination address, when no prefix length in
1..32 yields a range match, the matcher looks up no key of prefix length 0,
makes no socket lookup and returns DROP, whether or not the table holds a rule
keyed (0.0.0.0, 0) with a covering range: the search ends at prefix length 1. -/
theorem default_rule_not_reached (env : Env) (t : bpf_sock_tuple) (udp : Bool)
    (hmiss : ∀ q, 1 ≤ q → q ≤ 32 → ¬ prefix_hit env t udp q) :
    (∀ key, key ∈ tproxy_lookups (matcher env t udp).trace → key.prefix_len ≠ 0) ∧
      (tproxy_lookups (matcher env t udp).trace).getLast? = some (prefix_key t.daddr 1) ∧
      socket_lookups (matcher env t udp).trace = [] ∧
      (matcher env t udp).verdict = TC_ACT_SHOT := by
  refine ⟨fun key hkey => ?_, ?_, ?_, ?_⟩
  · have := matcher_prefix_len env t udp key hkey
    omega
  · rw [matcher_no_hit env t udp hmiss]
    simp only
    rw [pre_steps_keys env t udp 32 (Nat.le_refl _)]
    rfl
  · rw [matcher_no_hit env t udp hmiss]
    exact socket_lookups_reads _ (pre_steps_reads env t udp 32)
  · rw [matcher_no_hit env t udp hmiss]

/-- C2, witness: the table holds only 0.0.0.0/0 with the TCP range 1-65535. -/
theorem default_rule_not_reached_witness :
    (∀ key, key ∈ tproxy_lookups (matcher env_default_rule tuple_8085 false).trace →
        key.prefix_len ≠ 0) ∧
      (tproxy_lookups (matcher env_default_rule tuple_8085 false).trace).getLast? =
        some (prefix_key tuple_8085.daddr 1) ∧
      socket_lookups (matcher env_default_rule tuple_8085 false).trace = [] ∧
      (matcher env_default_rule tuple_8085 false).verdict = TC_ACT_SHOT :=
  default_rule_not_reached env_default_rule tuple_8085 false
    (by
      rintro q h1 h2 ⟨E, hE, _⟩
      simp only [env_default_rule, prefix_key, tproxy_key.mk.injEq] at hE
      split at hE
      · omega
      · exact Option.noConfusion hE)

/-- C2, counterexample: the table holds the rule keyed (0.0.0.0, 0) with the
TCP range 1-65535, which covers port 443, and nothing else; for a TCP packet to
192.168.1.7:443 the matcher never looks the rule up, its last lookup is the key
of prefix length 1, it resolves no target and drops. -/
theorem default_rule_counterexample :
    env_default_rule.zt_tproxy_map ⟨0, 0, 0⟩ = some entry_wide ∧
      has_cover entry_wide false (bpf_ntohs tuple_443.dport) ∧
      (∀ q, 1 ≤ q → q ≤ 32 → ¬ prefix_hit env_default_rule tuple_443 false q) ∧
      Event.get_tproxy ⟨0, 0, 0⟩ ∉ (matcher env_default_rule tuple_443 false).trace ∧
      (tproxy_lookups (matcher env_default_rule tuple_443 false).trace).getLast? =
        some ⟨0x80, 1, 0⟩ ∧
      socket_lookups (matcher env_default_rule tuple_443 false).trace = [] ∧
      (matcher env_default_rule tuple_443 false).verdict = TC_ACT_SHOT := by
  refine ⟨rfl, by decide, ?_, by decide, by decide, by decide, by decide⟩
  rintro q h1 h2 ⟨E, hE, _⟩
  simp only [env_default_rule, prefix_key, tproxy_key.mk.injEq] at hE
  split at hE
  · omega
  · exact Option.noConfusion hE

/-! ## The parser -/

theorem splice_well_formed (env : Env) (skb : sk_buff) (h : well_formed skb) :
    bpf_sk_splice env skb =
      classify_tuple env skb.ingress_ifindex (tuple_of skb) (is_udp skb) (is_tcp skb) := by
  obtain ⟨hlen, hproto, hihl, hp⟩ := h
  simp only [ETH_HLEN, IPHDR_SADDR_OFF, TUPLE_IPV4_SIZE] at hlen
  have h1 : ¬ (ETH_HLEN > skb.len) := by simp only [ETH_HLEN]; omega
  have h2 : bpf_htons ETH_P_IP ≠ bpf_htons ETH_P_ARP := by decide
  have h3 : bpf_htons ETH_P_IP ≠ bpf_htons ETH_P_IPV6 := by decide
  have h4 : ¬ (ETH_HLEN + IPHDR_SIZE > skb.len) := by simp only [ETH_HLEN, IPHDR_SIZE]; omega
  have h5 : ¬ (ETH_HLEN + IPHDR_SADDR_OFF + TUPLE_IPV4_SIZE > skb.len) := by
    simp only [ETH_HLEN, IPHDR_SADDR_OFF, TUPLE_IPV4_SIZE]; omega
  unfold bpf_sk_splice get_tuple
  rw [if_neg h1, hproto, if_neg h2, if_neg h3, if_pos rfl, if_neg h4, if_neg (not_not.2 hihl)]
  by_cases hu : skb.protocol = IPPROTO_UDP
  · rw [if_pos hu]
    simp only [if_neg h5]
    have hne : IPPROTO_UDP ≠ IPPROTO_TCP := by decide
    simp [tuple_of, is_udp, is_tcp, hu, hne]
  · have ht : skb.protocol = IPPROTO_TCP := hp.resolve_right hu
    rw [if_neg hu, if_pos ht]
    simp only [if_neg h5]
    have hne : IPPROTO_TCP ≠ IPPROTO_UDP := by decide
    simp [tuple_of, is_udp, is_tcp, ht, hne]

/-! ## C3: IPv6 frames -/

/-- C3, as amended: for every frame whose link-layer header fits before the
frame boundary and whose EtherType is IPv6, get_tuple returns no tuple and sets
only the ipv6 flag, and the verdict is DROP (TC_ACT_SHOT) with no table or
socket lookup, whatever the tables contain. -/
theorem ipv6_frame_dropped (env : Env) (skb : sk_buff) (hlen : ETH_HLEN ≤ skb.len)
    (hproto : skb.h_proto = bpf_htons ETH_P_IPV6) :
    get_tuple skb ETH_HLEN skb.h_proto ⟨false, false, false, false, false⟩ =
        (none, ⟨false, true, false, false, false⟩) ∧
      bpf_sk_splice env skb = ⟨TC_ACT_SHOT, []⟩ := by
  have h1 : ¬ (ETH_HLEN > skb.len) := by omega
  have h2 : bpf_htons ETH_P_IPV6 ≠ bpf_htons ETH_P_ARP := by decide
  constructor
  · unfold get_tuple
    rw [hproto, if_neg h2, if_pos rfl]
  · unfold bpf_sk_splice get_tuple
    rw [if_neg h1, hproto, if_neg h2, if_pos rfl]
    rfl

/-- C3, witness: a 74-byte IPv6 frame against the two-rule table. -/
theorem ipv6_frame_dropped_witness :
    get_tuple ipv6_frame ETH_HLEN ipv6_frame.h_proto ⟨false, false, false, false, false⟩ =
        (none, ⟨false, true, false, false, false⟩) ∧
      bpf_sk_splice env_two_rules ipv6_frame = ⟨TC_ACT_SHOT, []⟩ :=
  ipv6_frame_dropped env_two_rules ipv6_frame (by decide) (by decide)

/-- C3, counterexample: a 74-byte frame with EtherType IPv6 gets the verdict
TC_ACT_SHOT, which is not TC_ACT_OK. -/
theorem ipv6_frame_not_passed :
    ETH_HLEN ≤ ipv6_frame.len ∧ ipv6_frame.h_proto = bpf_htons ETH_P_IPV6 ∧
      (bpf_sk_splice env_empty ipv6_frame).verdict = TC_ACT_SHOT ∧
      (bpf_sk_splice env_empty ipv6_frame).verdict ≠ TC_ACT_OK := by
  decide

/-! ## C9: IP options -/

/-- C9: every IPv4 frame whose header-length field is not 5 gets the verdict
DROP with no table or socket lookup, whatever the tables contain and whatever
its length, protocol and ports are. -/
theorem ip_options_dropped (env : Env) (skb : sk_buff)
    (hproto : skb.h_proto = bpf_htons ETH_P_IP) (hihl : skb.ihl ≠ 5) :
    bpf_sk_splice env skb = ⟨TC_ACT_SHOT, []⟩ := by
  have h2 : bpf_htons ETH_P_IP ≠ bpf_htons ETH_P_ARP := by decide
  have h3 : bpf_htons ETH_P_IP ≠ bpf_htons ETH_P_IPV6 := by decide
  unfold bpf_sk_splice get_tuple
  by_cases h1 : ETH_HLEN > skb.len
  · rw [if_pos h1]
  · rw [if_neg h1, hproto, if_neg h2, if_neg h3, if_pos rfl]
    by_cases h4 : ETH_HLEN + IPHDR_SIZE > skb.len
    · rw [if_pos h4]
      rfl
    · rw [if_neg h4, if_pos hihl]
      rfl

/-- C9, witness: a TCP packet to port 22 with ihl = 6, no interface address
recorded (the packet would be passed by the port-22 rule without the option). -/
theorem ip_options_dropped_witness :
    bpf_sk_splice env_empty options_frame = ⟨TC_ACT_SHOT, []⟩ :=
  ip_options_dropped env_empty options_frame (by decide) (by decide)

/-! ## C10: degraded-mode SSH fallback -/

/-- C10: when the Interface-Address Table has no record for the ingress
interface, or the recorded address is 0, every well-formed IPv4 TCP packet with
destination port 22 is passed, whatever its destination address and whatever
the rule table and the sockets are; the interface lookup is the only step. -/
theorem degraded_mode_ssh (env : Env) (skb : sk_buff) (hwf : well_formed skb)
    (htcp : skb.protocol = IPPROTO_TCP) (hport : bpf_ntohs skb.dport = 22)
    (hno : env.ifindex_ip_map skb.ingress_ifindex = none ∨
      ∃ l, env.ifindex_ip_map skb.ingress_ifindex = some l ∧ l.ipaddr = 0) :
    bpf_sk_splice env skb = ⟨TC_ACT_OK, [Event.get_local_ip4 skb.ingress_ifindex]⟩ := by
  rw [splice_well_formed env skb hwf]
  have ht : is_tcp skb = true := by
    simp [is_tcp, htcp]
  have hs : ssh_pass (get_local_ip4 env skb.ingress_ifindex) (tuple_of skb) (is_tcp skb)
      = true := by
    rcases hno with h | ⟨l, h, h0⟩
    · simp [ssh_pass, get_local_ip4, h, ht, tuple_of, hport]
    · simp [ssh_pass, get_local_ip4, h, h0, ht, tuple_of, hport]
  simp only [classify_tuple, hs, if_true]

/-- C10, witness: empty tables, TCP packet to 10.0.0.5:22. -/
theorem degraded_mode_ssh_witness :
    bpf_sk_splice env_empty ssh_frame = ⟨TC_ACT_OK, [Event.get_local_ip4 ssh_frame.ingress_ifindex]⟩ :=
  degraded_mode_ssh env_empty ssh_frame (by decide) (by decide) (by decide) (Or.inl rfl)

/-! ## C4: inclusive port bounds -/

theorem bpf_ntohs_lt (x : Nat) : bpf_ntohs x < 65536 := by
  unfold bpf_ntohs
  omega

theorem range_test_iff (E : tproxy_tuple) (udp : Bool) (t : bpf_sock_tuple) (pos : Nat) :
    range_test E udp t pos = true ↔ covers E udp pos (bpf_ntohs t.dport) := by
  unfold range_test
  rw [scan_first_cons, scan_first_nil]
  by_cases h : covers E udp pos (bpf_ntohs t.dport)
  · simp [h]
  · simp [h]

/-- C4: for the range [lo, hi] (lo ≤ hi, host byte order) at an active index
position of an entry, for either protocol, the test of the scan at that position
succeeds for a destination port equal to lo and for one equal to hi, and the
scan of the entry then finds a range at that position or an earlier one; the
test fails for the ports lo - 1 and hi + 1. The test is exactly
lo ≤ port ≤ hi on the values bpf_ntohs gives, which are 16-bit values. -/
theorem inclusive_port_bounds (E : tproxy_tuple) (udp : Bool) (t : bpf_sock_tuple) (pos : Nat)
    (hpos : pos < active_len E udp) (hle : range_lo E udp pos ≤ range_hi E udp pos) :
    (bpf_ntohs t.dport = range_lo E udp pos → range_test E udp t pos = true) ∧
      (bpf_ntohs t.dport = range_hi E udp pos → range_test E udp t pos = true) ∧
      (bpf_ntohs t.dport + 1 = range_lo E udp pos → range_test E udp t pos = false) ∧
      (bpf_ntohs t.dport = range_hi E udp pos + 1 → range_test E udp t pos = false) ∧
      (range_test E udp t pos = true ↔
        range_lo E udp pos ≤ bpf_ntohs t.dport ∧ bpf_ntohs t.dport ≤ range_hi E udp pos) ∧
      (range_test E udp t pos = true →
        ∃ first, first ≤ pos ∧
          scan_first E udp t (List.range (active_len E udp)) = some (port_key_at E udp first)) ∧
      bpf_ntohs t.dport < 65536 ∧ range_lo E udp pos < 65536 ∧ range_hi E udp pos < 65536 := by
  have hiff := range_test_iff E udp t pos
  have hfalse : ¬ covers E udp pos (bpf_ntohs t.dport) → range_test E udp t pos = false := by
    intro h
    cases hr : range_test E udp t pos
    · rfl
    · exact absurd (hiff.1 hr) h
  refine ⟨fun h => hiff.2 ⟨by omega, by omega⟩, fun h => hiff.2 ⟨by omega, by omega⟩,
    fun h => hfalse (fun hc => ?_), fun h => hfalse (fun hc => ?_), hiff, fun h => ?_,
    bpf_ntohs_lt _, ?_, ?_⟩
  · have := hc.1
    omega
  · have := hc.2
    omega
  · obtain ⟨first, hfirst⟩ := has_cover_first E udp _ ⟨pos, hpos, hiff.1 h⟩
    refine ⟨first, ?_, ?_⟩
    · by_contra hgt
      exact hfirst.2.2 pos (by omega) (hiff.1 h)
    · rw [List.range_eq_range']
      exact scan_first_some E udp t (active_len E udp) 0 first (Nat.zero_le _)
        (by have := hfirst.1; omega) hfirst.2.1 (fun q _ hq => hfirst.2.2 q hq)
  · unfold range_lo
    split <;> exact bpf_ntohs_lt _
  · unfold range_hi
    split <;> exact bpf_ntohs_lt _

/-- C4, witness: the TCP range 8080-8090 at index position 0 and a packet to
port 8080. -/
theorem inclusive_port_bounds_witness :
    (bpf_ntohs tuple_8080.dport = range_lo entry_8080 false 0 →
        range_test entry_8080 false tuple_8080 0 = true) ∧
      (bpf_ntohs tuple_8080.dport = range_hi entry_8080 false 0 →
        range_test entry_8080 false tuple_8080 0 = true) ∧
      (bpf_ntohs tuple_8080.dport + 1 = range_lo entry_8080 false 0 →
        range_test entry_8080 false tuple_8080 0 = false) ∧
      (bpf_ntohs tuple_8080.dport = range_hi entry_8080 false 0 + 1 →
        range_test entry_8080 false tuple_8080 0 = false) ∧
      (range_test entry_8080 false tuple_8080 0 = true ↔
        range_lo entry_8080 false 0 ≤ bpf_ntohs tuple_8080.dport ∧
          bpf_ntohs tuple_8080.dport ≤ range_hi entry_8080 false 0) ∧
      (range_test entry_8080 false tuple_8080 0 = true →
        ∃ first, first ≤ 0 ∧
          scan_first entry_8080 false tuple_8080 (List.range (active_len entry_8080 false)) =
            some (port_key_at entry_8080 false first)) ∧
      bpf_ntohs tuple_8080.dport < 65536 ∧ range_lo entry_8080 false 0 < 65536 ∧
      range_hi entry_8080 false 0 < 65536 :=
  inclusive_port_bounds entry_8080 false tuple_8080 0 (by decide) (by decide)

/-! ## From the classifier to the matcher -/

theorem is_tcp_udp (skb : sk_buff) (h : skb.protocol = IPPROTO_TCP) :
    is_tcp skb = true ∧ is_udp skb = false := by
  have hne : IPPROTO_TCP ≠ IPPROTO_UDP := by decide
  simp [is_tcp, is_udp, h, hne]

theorem is_udp_tcp (skb : sk_buff) (h : skb.protocol = IPPROTO_UDP) :
    is_udp skb = true ∧ is_tcp skb = false := by
  have hne : IPPROTO_UDP ≠ IPPROTO_TCP := by decide
  simp [is_tcp, is_udp, h, hne]

theorem classify_not_bypassed (env : Env) (skb : sk_buff) (hssh : ¬ ssh_bypass env skb)
    (hdhcp : ¬ dhcp_bypass skb) :
    classify_tuple env skb.ingress_ifindex (tuple_of skb) (is_udp skb) (is_tcp skb) =
      match tcp_origin env (is_tcp skb) (tuple_of skb) with
      | (some sk, steps1) =>
        (assign env sk).after (Event.get_local_ip4 skb.ingress_ifindex :: steps1)
      | (none, steps1) =>
        match udp_origin env (is_udp skb) (tuple_of skb) with
        | (some sk, steps2) =>
          (assign env sk).after (Event.get_local_ip4 skb.ingress_ifindex :: (steps1 ++ steps2))
        | (none, steps2) =>
          (matcher env (tuple_of skb) (is_udp skb)).after
            (Event.get_local_ip4 skb.ingress_ifindex :: (steps1 ++ steps2)) := by
  have h1 : ssh_pass (get_local_ip4 env skb.ingress_ifindex) (tuple_of skb) (is_tcp skb)
      = false := by
    cases h : ssh_pass (get_local_ip4 env skb.ingress_ifindex) (tuple_of skb) (is_tcp skb)
    · rfl
    · exact absurd h hssh
  have h2 : ¬ (is_udp skb = true ∧ bpf_ntohs (tuple_of skb).sport = 67) := by
    rintro ⟨hu, hs⟩
    exact hdhcp ⟨by simpa [is_udp] using hu, hs⟩
  unfold classify_tuple
  simp only [h1, Bool.false_eq_true, if_false, if_neg h2]
  rfl

theorem splice_to_matcher (env : Env) (skb : sk_buff) (hwf : well_formed skb)
    (hssh : ¬ ssh_bypass env skb) (hdhcp : ¬ dhcp_bypass skb) (hown : ¬ locally_owned env skb) :
    bpf_sk_splice env skb =
      (matcher env (tuple_of skb) (is_udp skb)).after (origin_steps env skb) := by
  rw [splice_well_formed env skb hwf, classify_not_bypassed env skb hssh hdhcp]
  have ht : (tcp_origin env (is_tcp skb) (tuple_of skb)).1 = none := by
    unfold tcp_origin
    split
    · rename_i htcp
      have hp : skb.protocol = IPPROTO_TCP := by simpa [is_tcp] using htcp
      split
      · rename_i sk hsk
        split
        · rename_i hst
          exact absurd (Or.inl ⟨hp, sk, hsk, hst⟩) hown
        · rfl
      · rfl
    · rfl
  have hu : (udp_origin env (is_udp skb) (tuple_of skb)).1 = none := by
    simp only [udp_origin]
    split
    · rename_i hudp
      have hp : skb.protocol = IPPROTO_UDP := by simpa [is_udp] using hudp
      split
      · rename_i sk hsk
        split
        · rename_i hst
          exact absurd (Or.inr ⟨hp, sk, hsk, hst⟩) hown
        · rfl
      · rfl
    · rfl
  unfold origin_steps
  generalize tcp_origin env (is_tcp skb) (tuple_of skb) = r1 at ht ⊢
  generalize udp_origin env (is_udp skb) (tuple_of skb) = r2 at hu ⊢
  obtain ⟨a1, s1⟩ := r1
  obtain ⟨a2, s2⟩ := r2
  simp only at ht hu
  subst ht hu
  rfl

theorem origin_steps_keys (env : Env) (skb : sk_buff) :
    tproxy_lookups (origin_steps env skb) = [] := by
  apply tproxy_lookups_sockets
  intro e he
  unfold origin_steps at he
  simp only [List.mem_cons, List.mem_append] at he
  rcases he with rfl | he | he
  · rfl
  · unfold tcp_origin at he
    split at he
    · split at he
      · split at he
        · simp only [List.mem_singleton] at he
          subst he
          rfl
        · simp only [List.mem_cons, List.mem_singleton, List.not_mem_nil, or_false] at he
          rcases he with rfl | rfl <;> rfl
      · simp only [List.mem_singleton] at he
        subst he
        rfl
    · simp at he
  · simp only [udp_origin] at he
    split at he
    · split at he
      · split at he
        · simp only [List.mem_singleton] at he
          subst he
          rfl
        · simp only [List.mem_cons, List.mem_singleton, List.not_mem_nil, or_false] at he
          rcases he with rfl | rfl <;> rfl
      · simp only [List.mem_singleton] at he
        subst he
        rfl
    · simp at he

/-! ## C5: locally-owned flows -/

/-- C5: for every well-formed IPv4 packet not taken by the port-22 or DHCP
rule: if it is TCP and the lookup of its 4-tuple returns a socket that is not
listening, or it is UDP and the lookup returns a socket with non-zero peer
address, the evaluation consists of the interface lookup, that socket lookup,
the bind to that very socket and its release, with no rule-table lookup, and
the verdict is PASS iff the bind returns 0 and DROP otherwise; if the lookup
returns nothing, a listening TCP socket or a UDP socket with zero peer address,
the evaluation goes on with the matcher. -/
theorem locally_owned_flow (env : Env) (skb : sk_buff) (hwf : well_formed skb)
    (hssh : ¬ ssh_bypass env skb) (hdhcp : ¬ dhcp_bypass skb) :
    (∀ sk, skb.protocol = IPPROTO_TCP → env.bpf_skc_lookup_tcp (tuple_of skb) = some sk →
        sk.state ≠ BPF_TCP_LISTEN →
        bpf_sk_splice env skb =
          ⟨if env.bpf_sk_assign sk = 0 then TC_ACT_OK else TC_ACT_SHOT,
            [Event.get_local_ip4 skb.ingress_ifindex,
              Event.skc_lookup_tcp (tuple_of skb) (some sk),
              Event.sk_assign sk (env.bpf_sk_assign sk), Event.sk_release sk]⟩) ∧
      (∀ sk, skb.protocol = IPPROTO_UDP → env.bpf_sk_lookup_udp (tuple_of skb) = some sk →
        sk.dst_ip4 ≠ 0 →
        bpf_sk_splice env skb =
          ⟨if env.bpf_sk_assign sk = 0 then TC_ACT_OK else TC_ACT_SHOT,
            [Event.get_local_ip4 skb.ingress_ifindex,
              Event.sk_lookup_udp (tuple_of skb) (some sk),
              Event.sk_assign sk (env.bpf_sk_assign sk), Event.sk_release sk]⟩) ∧
      (skb.protocol = IPPROTO_TCP →
        (env.bpf_skc_lookup_tcp (tuple_of skb) = none ∨
          ∃ sk, env.bpf_skc_lookup_tcp (tuple_of skb) = some sk ∧ sk.state = BPF_TCP_LISTEN) →
        tproxy_lookups (origin_steps env skb) = [] ∧
          bpf_sk_splice env skb = (matcher env (tuple_of skb) false).after (origin_steps env skb)) ∧
      (skb.protocol = IPPROTO_UDP →
        (env.bpf_sk_lookup_udp (tuple_of skb) = none ∨
          ∃ sk, env.bpf_sk_lookup_udp (tuple_of skb) = some sk ∧ sk.dst_ip4 = 0) →
        tproxy_lookups (origin_steps env skb) = [] ∧
          bpf_sk_splice env skb = (matcher env (tuple_of skb) true).after (origin_steps env skb)) := by
  have hne : IPPROTO_TCP ≠ IPPROTO_UDP := by decide
  refine ⟨fun sk hp hsk hst => ?_, fun sk hp hsk hst => ?_, fun hp h => ?_, fun hp h => ?_⟩
  · rw [splice_well_formed env skb hwf, classify_not_bypassed env skb hssh hdhcp,
      (is_tcp_udp skb hp).1]
    simp only [tcp_origin, if_true, hsk, hst, ne_eq, not_false_eq_true]
    rfl
  · rw [splice_well_formed env skb hwf, classify_not_bypassed env skb hssh hdhcp,
      (is_udp_tcp skb hp).1, (is_udp_tcp skb hp).2]
    have hsk2 : env.bpf_sk_lookup_udp
        ⟨(tuple_of skb).saddr, (tuple_of skb).daddr, (tuple_of skb).sport, (tuple_of skb).dport⟩
        = some sk := hsk
    simp only [tcp_origin, udp_origin, if_true, hsk2, hst, ne_eq, not_false_eq_true,
      Bool.false_eq_true, if_false]
    rfl
  · have hown : ¬ locally_owned env skb := by
      rintro (⟨_, sk, hsk, hst⟩ | ⟨hu, _⟩)
      · rcases h with h | ⟨sk2, hsk2, hst2⟩
        · rw [h] at hsk
          exact Option.noConfusion hsk
        · rw [hsk2] at hsk
          cases hsk
          exact hst hst2
      · exact hne (hp.symm.trans hu)
    have := splice_to_matcher env skb hwf hssh hdhcp hown
    rw [(is_tcp_udp skb hp).2] at this
    exact ⟨origin_steps_keys env skb, this⟩
  · have hown : ¬ locally_owned env skb := by
      rintro (⟨ht, _⟩ | ⟨_, sk, hsk, hst⟩)
      · exact hne (ht.symm.trans hp)
      · rcases h with h | ⟨sk2, hsk2, hst2⟩
        · rw [h] at hsk
          exact Option.noConfusion hsk
        · rw [hsk2] at hsk
          cases hsk
          exact hst hst2
    have := splice_to_matcher env skb hwf hssh hdhcp hown
    rw [(is_udp_tcp skb hp).1] at this
    exact ⟨origin_steps_keys env skb, this⟩

/-- C5, witness: the two-rule table would resolve the packet to 10.0.0.5:8085
to 127.0.0.1:9000, but the flow has an established socket. -/
theorem locally_owned_flow_witness :
    bpf_sk_splice env_owned frame_8085 =
      ⟨TC_ACT_OK,
        [Event.get_local_ip4 3, Event.skc_lookup_tcp tuple_8085 (some ⟨7, 1, 0x0100000b⟩),
          Event.sk_assign ⟨7, 1, 0x0100000b⟩ 0, Event.sk_release ⟨7, 1, 0x0100000b⟩]⟩ :=
  (locally_owned_flow env_owned frame_8085 (by decide) (by decide) (by decide)).1
    ⟨7, 1, 0x0100000b⟩ rfl rfl (by decide)

/-! ## C8: no rule match -/

/-- C8: for every well-formed IPv4 TCP or UDP packet that is not taken by the
port-22 or DHCP rule and is not locally owned, if no entry keyed
(d & mask(p), p), p ≤ 32, holds an active range of the packet's protocol
covering the destination port, the verdict is DROP: the evaluation is the
interface lookup, the flow-origin lookup and the table reads of the 32 lookups
of the main loop. -/
theorem no_rule_match_drops (env : Env) (skb : sk_buff) (hwf : well_formed skb)
    (hssh : ¬ ssh_bypass env skb) (hdhcp : ¬ dhcp_bypass skb) (hown : ¬ locally_owned env skb)
    (hmiss : ∀ q, q ≤ 32 → ¬ prefix_hit env (tuple_of skb) (is_udp skb) q) :
    (bpf_sk_splice env skb).verdict = TC_ACT_SHOT ∧
      bpf_sk_splice env skb =
        ⟨TC_ACT_SHOT, origin_steps env skb ++ pre_steps env (tuple_of skb) (is_udp skb) 32⟩ := by
  have h := splice_to_matcher env skb hwf hssh hdhcp hown
  rw [matcher_no_hit env (tuple_of skb) (is_udp skb) (fun q _ h2 => hmiss q h2)] at h
  rw [h]
  exact ⟨rfl, rfl⟩

/-- C8, witness: the empty table and a TCP packet to 10.0.0.5:8085. -/
theorem no_rule_match_drops_witness :
    (bpf_sk_splice env_empty frame_8085).verdict = TC_ACT_SHOT ∧
      bpf_sk_splice env_empty frame_8085 =
        ⟨TC_ACT_SHOT, origin_steps env_empty frame_8085 ++
          pre_steps env_empty (tuple_of frame_8085) (is_udp frame_8085) 32⟩ :=
  no_rule_match_drops env_empty frame_8085 (by decide) (by decide) (by decide)
    (by
      rintro (⟨_, sk, hsk, _⟩ | ⟨_, sk, hsk, _⟩)
      · exact Option.noConfusion hsk
      · exact Option.noConfusion hsk)
    (by
      rintro q _ ⟨E, hE, _⟩
      exact Option.noConfusion hE)

/-! ## C6: splice outcome of a matched rule -/

theorem verdict_ok_or_shot : TC_ACT_OK ≠ TC_ACT_SHOT := by decide

theorem assign_verdict (env : Env) (sk : bpf_sock) :
    (assign env sk).verdict = if env.bpf_sk_assign sk = 0 then TC_ACT_OK else TC_ACT_SHOT := by
  rfl

theorem range_hit_verdict (env : Env) (E : tproxy_tuple) (udp : Bool) (pos : Nat) :
    ((range_hit env E udp pos).verdict = TC_ACT_OK ↔
        ∃ sk, socket_at env udp (range_target E udp pos) = some sk ∧
          (udp = false → sk.state = BPF_TCP_LISTEN) ∧ env.bpf_sk_assign sk = 0) ∧
      ((range_hit env E udp pos).verdict = TC_ACT_OK ∨
        (range_hit env E udp pos).verdict = TC_ACT_SHOT) := by
  have hne := verdict_ok_or_shot
  cases udp
  · simp only [range_hit, tcp_hit, socket_at, range_target, Bool.false_eq_true, if_false]
    cases h : env.bpf_skc_lookup_tcp _ with
    | none => simp [hne.symm]
    | some sk =>
      by_cases hs : sk.state = BPF_TCP_LISTEN
      · by_cases ha : env.bpf_sk_assign sk = 0
        · simp [hs, ha, Outcome.after, assign_verdict]
        · simp [hs, ha, Outcome.after, assign_verdict, hne.symm]
      · simp [hs, hne.symm]
  · simp only [range_hit, udp_hit, socket_at, range_target, if_true]
    cases h : env.bpf_sk_lookup_udp _ with
    | none => simp [hne.symm]
    | some sk =>
      by_cases ha : env.bpf_sk_assign sk = 0
      · simp [ha, Outcome.after, assign_verdict]
      · simp [ha, Outcome.after, assign_verdict, hne.symm]

/-- C6: for every packet that reaches the matcher and whose search hits a
range (first covering position of the entry of the longest prefix length
p in 1..32 with a covering range), the matcher makes exactly one socket lookup,
for exactly the range's target address and port; the verdict is TC_ACT_OK iff a
socket is found there, it is listening when the packet is TCP, and the bind
returns 0, and TC_ACT_SHOT otherwise; no key of a prefix length shorter than p
is looked up. -/
theorem matched_rule_splice (env : Env) (t : bpf_sock_tuple) (udp : Bool) (p : Nat)
    (E : tproxy_tuple) (hp1 : 1 ≤ p) (hp : p ≤ 32)
    (hE : env.zt_tproxy_map (prefix_key t.daddr p) = some E)
    (hcov : has_cover E udp (bpf_ntohs t.dport))
    (hlong : ∀ q, p < q → q ≤ 32 → ¬ prefix_hit env t udp q) :
    ∃ pos, first_cover E udp (bpf_ntohs t.dport) pos ∧
      socket_lookups (matcher env t udp).trace =
        [target_lookup env udp (range_target E udp pos)] ∧
      ((matcher env t udp).verdict = TC_ACT_OK ↔
        ∃ sk, socket_at env udp (range_target E udp pos) = some sk ∧
          (udp = false → sk.state = BPF_TCP_LISTEN) ∧ env.bpf_sk_assign sk = 0) ∧
      ((matcher env t udp).verdict ≠ TC_ACT_OK → (matcher env t udp).verdict = TC_ACT_SHOT) ∧
      (∀ key, key ∈ tproxy_lookups (matcher env t udp).trace → p ≤ key.prefix_len) := by
  obtain ⟨pos, hpos⟩ := has_cover_first E udp _ hcov
  have hm := matcher_first_hit env t udp p E pos hp1 hp hE hpos hlong
  have hv : (matcher env t udp).verdict = (range_hit env E udp pos).verdict := by
    rw [hm]
    rfl
  have ht : (matcher env t udp).trace =
      pre_steps env t udp (32 - p + 1) ++ (range_hit env E udp pos).trace := by
    rw [hm]
    rfl
  refine ⟨pos, hpos, ?_, ?_, ?_, ?_⟩
  · rw [ht, socket_lookups_append, socket_lookups_reads _ (pre_steps_reads env t udp _),
      range_hit_sockets, List.nil_append]
  · rw [hv]
    exact (range_hit_verdict env E udp pos).1
  · rw [hv]
    intro h
    exact (range_hit_verdict env E udp pos).2.resolve_left h
  · intro key hkey
    rw [ht, tproxy_lookups_append,
      tproxy_lookups_sockets _ (range_hit_no_table_read env E udp pos), List.append_nil] at hkey
    have := pre_steps_prefix_len env t udp (32 - p + 1) (by omega) key hkey
    omega

/-- C6, witness: table {10.0.0.0/24, TCP 8080-8090 -> 127.0.0.1:9000}, TCP
packet to 10.0.0.5:8085. -/
theorem matched_rule_splice_witness :
    ∃ pos, first_cover entry_8080 false (bpf_ntohs tuple_8085.dport) pos ∧
      socket_lookups (matcher env_one_rule tuple_8085 false).trace =
        [target_lookup env_one_rule false (range_target entry_8080 false pos)] ∧
      ((matcher env_one_rule tuple_8085 false).verdict = TC_ACT_OK ↔
        ∃ sk, socket_at env_one_rule false (range_target entry_8080 false pos) = some sk ∧
          (false = false → sk.state = BPF_TCP_LISTEN) ∧ env_one_rule.bpf_sk_assign sk = 0) ∧
      ((matcher env_one_rule tuple_8085 false).verdict ≠ TC_ACT_OK →
        (matcher env_one_rule tuple_8085 false).verdict = TC_ACT_SHOT) ∧
      (∀ key, key ∈ tproxy_lookups (matcher env_one_rule tuple_8085 false).trace →
        24 ≤ key.prefix_len) :=
  matched_rule_splice env_one_rule tuple_8085 false 24 entry_8080 (by decide) (by decide)
    rfl (by decide)
    (by
      rintro q h1 h2 ⟨E, hE, _⟩
      simp only [env_one_rule, prefix_key, tproxy_key.mk.injEq] at hE
      split at hE
      · omega
      · exact Option.noConfusion hE)

theorem matched_rule_target_example :
    range_target entry_8080 false 0 = ⟨0, 0x0100007f, 0, bpf_htons 9000⟩ ∧
      socket_lookups (matcher env_one_rule tuple_8085 false).trace =
        [Event.skc_lookup_tcp ⟨0, 0x0100007f, 0, bpf_htons 9000⟩ (some ⟨1, BPF_TCP_LISTEN, 0⟩)] ∧
      (matcher env_one_rule tuple_8085 false).verdict = TC_ACT_OK := by
  decide

/-! ## C7: fall-through -/

theorem lookup_body_without (env : Env) (t : bpf_sock_tuple) (udp : Bool)
    (key k : tproxy_key) (hk : k ≠ key) :
    lookup_body (env.without key) t udp k = lookup_body env t udp k := by
  simp only [lookup_body, get_tproxy, Env.without, if_neg hk]
  rfl

theorem summary_after (pre pre2 : List Event) (o o2 : Outcome)
    (hs : socket_lookups pre = socket_lookups pre2)
    (hk : tproxy_lookups pre = tproxy_lookups pre2) (h : o.summary = o2.summary) :
    (o.after pre).summary = (o2.after pre2).summary := by
  simp only [Outcome.summary, Outcome.after, Prod.mk.injEq] at h ⊢
  rw [socket_lookups_append, socket_lookups_append, tproxy_lookups_append,
    tproxy_lookups_append, hs, hk, h.1, h.2.1, h.2.2]
  exact ⟨rfl, rfl, rfl⟩

theorem main_loop_without (env : Env) (t : bpf_sock_tuple) (udp : Bool) (key : tproxy_key)
    (E : tproxy_tuple) (hE : env.zt_tproxy_map key = some E)
    (hno : ¬ has_cover E udp (bpf_ntohs t.dport)) :
    ∀ counts mask exponent,
      (main_loop env t udp counts mask exponent).summary =
        (main_loop (env.without key) t udp counts mask exponent).summary := by
  intro counts
  induction counts with
  | nil => intro mask exponent; rfl
  | cons count rest ih =>
    intro mask exponent
    by_cases hk : (⟨t.daddr &&& mask, maxlen - count, 0⟩ : tproxy_key) = key
    · have h1 : (lookup_body env t udp ⟨t.daddr &&& mask, maxlen - count, 0⟩).1 = none := by
        rw [hk]
        exact lookup_body_miss env t udp key E hE hno
      have h2 : lookup_body (env.without key) t udp ⟨t.daddr &&& mask, maxlen - count, 0⟩ =
          (none, [Event.get_tproxy ⟨t.daddr &&& mask, maxlen - count, 0⟩]) := by
        apply lookup_body_absent
        simp [Env.without, hk]
      have h3 : (lookup_body (env.without key) t udp ⟨t.daddr &&& mask, maxlen - count, 0⟩).1 =
          none := by rw [h2]
      have hs : socket_lookups (lookup_body env t udp ⟨t.daddr &&& mask, maxlen - count, 0⟩).2 =
          socket_lookups
            (lookup_body (env.without key) t udp ⟨t.daddr &&& mask, maxlen - count, 0⟩).2 := by
        rw [socket_lookups_reads _ (lookup_body_reads env t udp _),
          socket_lookups_reads _ (lookup_body_reads (env.without key) t udp _)]
      have hkeys : tproxy_lookups
          (lookup_body env t udp ⟨t.daddr &&& mask, maxlen - count, 0⟩).2 =
          tproxy_lookups
            (lookup_body (env.without key) t udp ⟨t.daddr &&& mask, maxlen - count, 0⟩).2 := by
        rw [lookup_body_keys, lookup_body_keys]
      by_cases hm : mask = 0x00000080
      · rw [main_loop_cons_stop env t udp count rest mask exponent h1 hm,
          main_loop_cons_stop (env.without key) t udp count rest mask exponent h3 hm]
        simp only [Outcome.summary, hs, hkeys]
      · rw [main_loop_cons_next env t udp count rest mask exponent h1 hm,
          main_loop_cons_next (env.without key) t udp count rest mask exponent h3 hm]
        exact summary_after _ _ _ _ hs hkeys (ih _ _)
    · have hb := lookup_body_without env t udp key _ hk
      cases h1 : (lookup_body env t udp ⟨t.daddr &&& mask, maxlen - count, 0⟩).1 with
      | some out =>
        have h3 : (lookup_body (env.without key) t udp
            ⟨t.daddr &&& mask, maxlen - count, 0⟩).1 = some out := by rw [hb, h1]
        rw [main_loop_cons_hit env t udp count rest mask exponent out h1,
          main_loop_cons_hit (env.without key) t udp count rest mask exponent out h3, hb]
      | none =>
        have h3 : (lookup_body (env.without key) t udp
            ⟨t.daddr &&& mask, maxlen - count, 0⟩).1 = none := by rw [hb, h1]
        by_cases hm : mask = 0x00000080
        · rw [main_loop_cons_stop env t udp count rest mask exponent h1 hm,
            main_loop_cons_stop (env.without key) t udp count rest mask exponent h3 hm, hb]
        · rw [main_loop_cons_next env t udp count rest mask exponent h1 hm,
            main_loop_cons_next (env.without key) t udp count rest mask exponent h3 hm, hb]
          exact summary_after _ _ _ _ rfl rfl (ih _ _)

/-- C7: for every packet that reaches the matcher, a table entry without an
active range of the packet's protocol covering the destination port does not
stop the search: verdict, socket lookups and the sequence of keys looked up are
those of the same table without that entry. In particular, when that entry is
keyed at prefix length p of the destination, an entry at a shorter prefix
length q in 1..p-1 that holds a covering range, with no covering range at any
other prefix length above q, is still selected. -/
theorem fall_through (env : Env) (t : bpf_sock_tuple) (udp : Bool) (key : tproxy_key)
    (E : tproxy_tuple) (hE : env.zt_tproxy_map key = some E)
    (hno : ¬ has_cover E udp (bpf_ntohs t.dport)) :
    (matcher env t udp).verdict = (matcher (env.without key) t udp).verdict ∧
      socket_lookups (matcher env t udp).trace =
        socket_lookups (matcher (env.without key) t udp).trace ∧
      tproxy_lookups (matcher env t udp).trace =
        tproxy_lookups (matcher (env.without key) t udp).trace ∧
      (∀ p q F, key = prefix_key t.daddr p → p ≤ 32 → 1 ≤ q → q < p →
        env.zt_tproxy_map (prefix_key t.daddr q) = some F →
        has_cover F udp (bpf_ntohs t.dport) →
        (∀ r, q < r → r ≤ 32 → r ≠ p → ¬ prefix_hit env t udp r) →
        ∃ pos, first_cover F udp (bpf_ntohs t.dport) pos ∧
          socket_lookups (matcher env t udp).trace =
            [target_lookup env udp (range_target F udp pos)]) := by
  have h := main_loop_without env t udp key E hE hno (List.range (maxlen + 1)) 0xffffffff 24
  simp only [Outcome.summary, Prod.mk.injEq] at h
  refine ⟨h.1, h.2.1, h.2.2, ?_⟩
  intro p q F hkey hp hq1 hqp hF hcov hother
  obtain ⟨pos, hpos⟩ := has_cover_first F udp _ hcov
  have hlong : ∀ r, q < r → r ≤ 32 → ¬ prefix_hit env t udp r := by
    intro r hr1 hr2
    by_cases hrp : r = p
    · rintro ⟨E2, hE2, hc2⟩
      rw [hrp, ← hkey, hE] at hE2
      cases hE2
      exact hno hc2
    · exact hother r hr1 hr2 hrp
  have hm := matcher_first_hit env t udp q F pos hq1 (by omega) hF hpos hlong
  refine ⟨pos, hpos, ?_⟩
  rw [hm]
  simp only [Outcome.after]
  rw [socket_lookups_append, socket_lookups_reads _ (pre_steps_reads env t udp _),
    range_hit_sockets, List.nil_append]

/-- C7, witness: table {10.0.0.0/24, TCP 8080-8090}, TCP packet to
10.0.0.5:9999: no range at /24, and the result is that of the empty table. -/
theorem fall_through_witness :
    (matcher env_one_rule tuple_9999 false).verdict =
        (matcher (env_one_rule.without ⟨0x0000000a, 24, 0⟩) tuple_9999 false).verdict ∧
      socket_lookups (matcher env_one_rule tuple_9999 false).trace =
        socket_lookups (matcher (env_one_rule.without ⟨0x0000000a, 24, 0⟩) tuple_9999 false).trace ∧
      tproxy_lookups (matcher env_one_rule tuple_9999 false).trace =
        tproxy_lookups (matcher (env_one_rule.without ⟨0x0000000a, 24, 0⟩) tuple_9999 false).trace ∧
      (∀ p q F, (⟨0x0000000a, 24, 0⟩ : tproxy_key) = prefix_key tuple_9999.daddr p → p ≤ 32 →
        1 ≤ q → q < p →
        env_one_rule.zt_tproxy_map (prefix_key tuple_9999.daddr q) = some F →
        has_cover F false (bpf_ntohs tuple_9999.dport) →
        (∀ r, q < r → r ≤ 32 → r ≠ p → ¬ prefix_hit env_one_rule tuple_9999 false r) →
        ∃ pos, first_cover F false (bpf_ntohs tuple_9999.dport) pos ∧
          socket_lookups (matcher env_one_rule tuple_9999 false).trace =
            [target_lookup env_one_rule false (range_target F false pos)]) :=
  fall_through env_one_rule tuple_9999 false ⟨0x0000000a, 24, 0⟩ entry_8080 rfl (by decide)

theorem fall_through_example :
    tproxy_lookups (matcher env_one_rule tuple_9999 false).trace =
        (List.range 32).map (fun j => prefix_key tuple_9999.daddr (32 - j)) ∧
      (matcher env_one_rule tuple_9999 false).verdict = TC_ACT_SHOT := by
  decide

theorem fall_through_shorter_example :
    ¬ has_cover entry_8080 false (bpf_ntohs tuple_9999.dport) ∧
      socket_lookups (matcher env_two_rules tuple_9999 false).trace =
        [Event.skc_lookup_tcp ⟨0, 0x0100007f, 0, bpf_htons 7000⟩ (some ⟨2, BPF_TCP_LISTEN, 0⟩)] ∧
      (matcher env_two_rules tuple_9999 false).verdict = TC_ACT_OK := by
  decide

/-! ## C11: SSH limited to the registered address -/

theorem ssh_pass_registered (env : Env) (skb : sk_buff) (l : ifindex_ip4)
    (hl : env.ifindex_ip_map skb.ingress_ifindex = some l) (hA : l.ipaddr ≠ 0) :
    ssh_pass (get_local_ip4 env skb.ingress_ifindex) (tuple_of skb) (is_tcp skb) =
      decide (skb.daddr = l.ipaddr ∧ bpf_ntohs skb.dport = 22) := by
  simp [ssh_pass, get_local_ip4, hl, hA, tuple_of]

theorem splice_tcp_flow (env : Env) (skb : sk_buff) (hwf : well_formed skb)
    (htcp : skb.protocol = IPPROTO_TCP) (hssh : ¬ ssh_bypass env skb) :
    bpf_sk_splice env skb =
      match tcp_origin env true (tuple_of skb) with
      | (some sk, steps1) =>
        (assign env sk).after (Event.get_local_ip4 skb.ingress_ifindex :: steps1)
      | (none, steps1) =>
        (matcher env (tuple_of skb) false).after
          (Event.get_local_ip4 skb.ingress_ifindex :: steps1) := by
  have hne : IPPROTO_TCP ≠ IPPROTO_UDP := by decide
  have hdhcp : ¬ dhcp_bypass skb := fun h => hne (htcp.symm.trans h.1)
  rw [splice_well_formed env skb hwf, classify_not_bypassed env skb hssh hdhcp,
    (is_tcp_udp skb htcp).1, (is_tcp_udp skb htcp).2]
  generalize tcp_origin env true (tuple_of skb) = r
  obtain ⟨a, s⟩ := r
  cases a
  · simp [udp_origin]
  · rfl

/-- C11: when the Interface-Address Table maps the ingress interface to a
non-zero address A, a well-formed IPv4 TCP packet to port 22 whose destination
address is A is passed after the interface lookup alone; one whose destination
address differs from A is not taken by the port-22 rule: its outcome is that of
the flow-origin check followed by the bind to the owning socket or by the
matcher, and it is DROP when the flow is not locally owned and no prefix length
in 1..32 yields a range match. -/
theorem ssh_registered_address (env : Env) (skb : sk_buff) (l : ifindex_ip4)
    (hwf : well_formed skb) (htcp : skb.protocol = IPPROTO_TCP)
    (hport : bpf_ntohs skb.dport = 22)
    (hl : env.ifindex_ip_map skb.ingress_ifindex = some l) (hA : l.ipaddr ≠ 0) :
    (skb.daddr = l.ipaddr →
        bpf_sk_splice env skb = ⟨TC_ACT_OK, [Event.get_local_ip4 skb.ingress_ifindex]⟩) ∧
      (skb.daddr ≠ l.ipaddr →
        ¬ ssh_bypass env skb ∧
          bpf_sk_splice env skb =
            (match tcp_origin env true (tuple_of skb) with
              | (some sk, steps1) =>
                (assign env sk).after (Event.get_local_ip4 skb.ingress_ifindex :: steps1)
              | (none, steps1) =>
                (matcher env (tuple_of skb) false).after
                  (Event.get_local_ip4 skb.ingress_ifindex :: steps1)) ∧
          (¬ locally_owned env skb →
            (∀ q, 1 ≤ q → q ≤ 32 → ¬ prefix_hit env (tuple_of skb) false q) →
            (bpf_sk_splice env skb).verdict = TC_ACT_SHOT)) := by
  have hs := ssh_pass_registered env skb l hl hA
  constructor
  · intro hd
    rw [splice_well_formed env skb hwf]
    have h1 : ssh_pass (get_local_ip4 env skb.ingress_ifindex) (tuple_of skb) (is_tcp skb)
        = true := by
      rw [hs]
      exact decide_eq_true ⟨hd, hport⟩
    simp only [classify_tuple, h1, if_true]
  · intro hd
    have hssh : ¬ ssh_bypass env skb := by
      unfold ssh_bypass
      rw [hs]
      simp [hd]
    refine ⟨hssh, splice_tcp_flow env skb hwf htcp hssh, fun hown hmiss => ?_⟩
    have hne : IPPROTO_TCP ≠ IPPROTO_UDP := by decide
    have hdhcp : ¬ dhcp_bypass skb := fun h => hne (htcp.symm.trans h.1)
    rw [splice_to_matcher env skb hwf hssh hdhcp hown, (is_tcp_udp skb htcp).2,
      matcher_no_hit env (tuple_of skb) false hmiss]
    rfl

/-- C11, witness: {ifindex 3 -> 192.168.1.1} and a TCP packet to 192.168.1.1:22
arriving on interface 3. -/
theorem ssh_registered_address_witness :
    bpf_sk_splice env_iface3 ssh_frame_registered = ⟨TC_ACT_OK, [Event.get_local_ip4 3]⟩ :=
  (ssh_registered_address env_iface3 ssh_frame_registered ⟨0x0101a8c0, 3⟩ (by decide)
    (by decide) (by decide) rfl (by decide)).1 rfl

theorem ssh_other_address_example :
    ¬ ssh_bypass env_iface3 ssh_frame_other ∧
      (bpf_sk_splice env_iface3 ssh_frame_other).verdict = TC_ACT_SHOT ∧
      tproxy_lookups (bpf_sk_splice env_iface3 ssh_frame_other).trace =
        (List.range 32).map (fun j => prefix_key ssh_frame_other.daddr (32 - j)) := by
  decide

/-! ## C12: DHCP bypass -/

/-- C12: every well-formed IPv4 UDP packet whose source port is 67 gets the
verdict PASS, whatever the tables and the sockets are; the lookup of the
interface address is the only step, no socket and no rule is looked up. -/
theorem dhcp_bypass_pass (env : Env) (skb : sk_buff) (hwf : well_formed skb)
    (hudp : skb.protocol = IPPROTO_UDP) (hsport : bpf_ntohs skb.sport = 67) :
    bpf_sk_splice env skb = ⟨TC_ACT_OK, [Event.get_local_ip4 skb.ingress_ifindex]⟩ := by
  rw [splice_well_formed env skb hwf]
  have h2 : is_udp skb = true ∧ bpf_ntohs (tuple_of skb).sport = 67 :=
    ⟨(is_udp_tcp skb hudp).1, hsport⟩
  unfold classify_tuple
  simp only [if_pos h2]
  split <;> rfl

/-- C12, witness: a UDP packet with source port 67 against the two-rule table. -/
theorem dhcp_bypass_pass_witness :
    bpf_sk_splice env_two_rules dhcp_frame = ⟨TC_ACT_OK, [Event.get_local_ip4 3]⟩ :=
  dhcp_bypass_pass env_two_rules dhcp_frame (by decide) (by decide) (by decide)

/-! ## C13: ARP frames -/

/-- C13: for every frame whose link-layer header fits before the frame
boundary and whose EtherType is ARP, get_tuple returns no tuple and sets only
the arp flag, and the verdict is PASS (TC_ACT_OK) with no table or socket
lookup, whatever the tables contain. -/
theorem arp_frame_passed (env : Env) (skb : sk_buff) (hlen : ETH_HLEN ≤ skb.len)
    (hproto : skb.h_proto = bpf_htons ETH_P_ARP) :
    get_tuple skb ETH_HLEN skb.h_proto ⟨false, false, false, false, false⟩ =
        (none, ⟨false, false, false, false, true⟩) ∧
      bpf_sk_splice env skb = ⟨TC_ACT_OK, []⟩ := by
  have h1 : ¬ (ETH_HLEN > skb.len) := by omega
  constructor
  · unfold get_tuple
    rw [hproto, if_pos rfl]
  · unfold bpf_sk_splice get_tuple
    rw [if_neg h1, hproto, if_pos rfl]
    rfl

/-- C13, witness: a 42-byte ARP frame against the two-rule table. -/
theorem arp_frame_passed_witness :
    get_tuple arp_frame ETH_HLEN arp_frame.h_proto ⟨false, false, false, false, false⟩ =
        (none, ⟨false, false, false, false, true⟩) ∧
      bpf_sk_splice env_two_rules arp_frame = ⟨TC_ACT_OK, []⟩ :=
  arp_frame_passed env_two_rules arp_frame (by decide) (by decide)

/-! ## C14: truncated and unsupported frames -/

/-- C14: a frame whose link-layer header does not fit before the frame
boundary, an IPv4 frame whose network-layer header or whose 4-tuple does not
fit before the frame boundary, and an IPv4 frame whose protocol is neither UDP
nor TCP get the verdict DROP with no table or socket lookup, whatever the
tables contain. -/
theorem truncated_or_unsupported_dropped (env : Env) (skb : sk_buff)
    (h : skb.len < ETH_HLEN ∨
      (skb.h_proto = bpf_htons ETH_P_IP ∧
        (skb.len < ETH_HLEN + IPHDR_SIZE ∨
          skb.len < ETH_HLEN + IPHDR_SADDR_OFF + TUPLE_IPV4_SIZE ∨
          (skb.protocol ≠ IPPROTO_UDP ∧ skb.protocol ≠ IPPROTO_TCP)))) :
    bpf_sk_splice env skb = ⟨TC_ACT_SHOT, []⟩ := by
  have h2 : bpf_htons ETH_P_IP ≠ bpf_htons ETH_P_ARP := by decide
  have h3 : bpf_htons ETH_P_IP ≠ bpf_htons ETH_P_IPV6 := by decide
  unfold bpf_sk_splice get_tuple
  by_cases h1 : ETH_HLEN > skb.len
  · rw [if_pos h1]
  · rw [if_neg h1]
    rcases h with h | ⟨hproto, h⟩
    · exact absurd h (by omega)
    · rw [hproto, if_neg h2, if_neg h3, if_pos rfl]
      by_cases h4 : ETH_HLEN + IPHDR_SIZE > skb.len
      · rw [if_pos h4]
        rfl
      · rw [if_neg h4]
        by_cases h5 : skb.ihl ≠ 5
        · rw [if_pos h5]
          rfl
        · rw [if_neg h5]
          by_cases hu : skb.protocol = IPPROTO_UDP
          · rw [if_pos hu]
            rcases h with h | h | h
            · exact absurd h (by omega)
            · have h6 : ETH_HLEN + IPHDR_SADDR_OFF + TUPLE_IPV4_SIZE > skb.len := h
              simp only [if_pos h6]
            · exact absurd hu h.1
          · rw [if_neg hu]
            by_cases ht : skb.protocol = IPPROTO_TCP
            · rw [if_pos ht]
              rcases h with h | h | h
              · exact absurd h (by omega)
              · have h6 : ETH_HLEN + IPHDR_SADDR_OFF + TUPLE_IPV4_SIZE > skb.len := h
                simp only [if_pos h6]
              · exact absurd ht h.2
            · rw [if_neg ht]
              rfl

/-- C14, witness: an ICMP packet against the two-rule table. -/
theorem truncated_or_unsupported_dropped_witness :
    bpf_sk_splice env_two_rules icmp_frame = ⟨TC_ACT_SHOT, []⟩ :=
  truncated_or_unsupported_dropped env_two_rules icmp_frame
    (Or.inr ⟨rfl, Or.inr (Or.inr (by decide))⟩)

theorem truncated_examples :
    bpf_sk_splice env_empty runt_frame = ⟨TC_ACT_SHOT, []⟩ ∧
      bpf_sk_splice env_empty short_tuple_frame = ⟨TC_ACT_SHOT, []⟩ ∧
      bpf_sk_splice env_empty { short_tuple_frame with len := 38 } =
        ⟨TC_ACT_OK, [Event.get_local_ip4 3]⟩ := by
  decide

/-! ## C20: the registered-address rule does not test the protocol -/

/-- C20: when the Interface-Address Table maps the ingress interface to a
non-zero address A, every well-formed IPv4 packet, UDP as well as TCP, whose
destination address is A and whose destination port is 22 gets the verdict PASS
after the interface lookup alone, with no socket and no rule lookup; with no
record or a recorded address 0, the port-22 rule takes the packet only when it
is TCP. -/
theorem registered_ssh_any_protocol (env : Env) (skb : sk_buff) (l : ifindex_ip4)
    (hwf : well_formed skb) (hl : env.ifindex_ip_map skb.ingress_ifindex = some l)
    (hA : l.ipaddr ≠ 0) (hd : skb.daddr = l.ipaddr) (hport : bpf_ntohs skb.dport = 22) :
    bpf_sk_splice env skb = ⟨TC_ACT_OK, [Event.get_local_ip4 skb.ingress_ifindex]⟩ ∧
      (∀ degraded : Env,
        (degraded.ifindex_ip_map skb.ingress_ifindex = none ∨
          ∃ r, degraded.ifindex_ip_map skb.ingress_ifindex = some r ∧ r.ipaddr = 0) →
        (ssh_bypass degraded skb ↔ skb.protocol = IPPROTO_TCP)) := by
  constructor
  · rw [splice_well_formed env skb hwf]
    have h1 : ssh_pass (get_local_ip4 env skb.ingress_ifindex) (tuple_of skb) (is_tcp skb)
        = true := by
      rw [ssh_pass_registered env skb l hl hA]
      exact decide_eq_true ⟨hd, hport⟩
    simp only [classify_tuple, h1, if_true]
  · intro degraded hno
    unfold ssh_bypass
    rcases hno with h | ⟨r, h, h0⟩
    · simp [ssh_pass, get_local_ip4, h, tuple_of, hport, is_tcp]
    · simp [ssh_pass, get_local_ip4, h, h0, tuple_of, hport, is_tcp]

/-- C20, witness: {ifindex 3 -> 192.168.1.1} and a UDP packet to
192.168.1.1:22 arriving on interface 3. -/
theorem registered_ssh_any_protocol_witness :
    bpf_sk_splice env_iface3 udp22_frame_registered = ⟨TC_ACT_OK, [Event.get_local_ip4 3]⟩ :=
  (registered_ssh_any_protocol env_iface3 udp22_frame_registered ⟨0x0101a8c0, 3⟩ (by decide)
    rfl (by decide) rfl (by decide)).1

theorem degraded_udp22_example :
    ¬ ssh_bypass env_empty udp22_frame_registered ∧
      (bpf_sk_splice env_empty udp22_frame_registered).verdict = TC_ACT_SHOT := by
  decide

/-! ## C15: capacity bound of the scan -/

theorem scan_reads_shape (E : tproxy_tuple) (udp : Bool) (t : bpf_sock_tuple) (l : List Nat) :
    ∀ e, e ∈ scan_reads E udp t l →
      (∃ index, index ∈ l ∧ e = Event.read_index udp index) ∨
        (∃ port_key, port_key < 2 ^ 16 ∧ e = Event.read_mapping udp port_key) := by
  induction l with
  | nil => cases udp <;> simp [scan_reads, udp_scan, tcp_scan]
  | cons index rest ih =>
    have hlt : ∀ x : Nat, x % 2 ^ 16 < 2 ^ 16 := fun x => Nat.mod_lt _ (by norm_num)
    intro e he
    cases udp
    · simp only [scan_reads, Bool.false_eq_true, if_false] at ih he
      simp only [tcp_scan] at he
      split at he
      · simp only [List.mem_cons, List.mem_singleton, List.not_mem_nil, or_false] at he
        rcases he with rfl | rfl
        · exact Or.inl ⟨index, List.mem_cons_self _ _, rfl⟩
        · exact Or.inr ⟨_, hlt _, rfl⟩
      · simp only [List.mem_append, List.mem_cons, List.mem_singleton, List.not_mem_nil,
          or_false] at he
        rcases he with (rfl | rfl) | he
        · exact Or.inl ⟨index, List.mem_cons_self _ _, rfl⟩
        · exact Or.inr ⟨_, hlt _, rfl⟩
        · rcases ih e he with ⟨i, hi, rfl⟩ | h
          · exact Or.inl ⟨i, List.mem_cons_of_mem _ hi, rfl⟩
          · exact Or.inr h
    · simp only [scan_reads, if_true] at ih he
      simp only [udp_scan] at he
      split at he
      · simp only [List.mem_cons, List.mem_singleton, List.not_mem_nil, or_false] at he
        rcases he with rfl | rfl
        · exact Or.inl ⟨index, List.mem_cons_self _ _, rfl⟩
        · exact Or.inr ⟨_, hlt _, rfl⟩
      · simp only [List.mem_append, List.mem_cons, List.mem_singleton, List.not_mem_nil,
          or_false] at he
        rcases he with (rfl | rfl) | he
        · exact Or.inl ⟨index, List.mem_cons_self _ _, rfl⟩
        · exact Or.inr ⟨_, hlt _, rfl⟩
        · rcases ih e he with ⟨i, hi, rfl⟩ | h
          · exact Or.inl ⟨i, List.mem_cons_of_mem _ hi, rfl⟩
          · exact Or.inr h

theorem active_len_le (E : tproxy_tuple) (udp : Bool) : active_len E udp ≤ MAX_INDEX_ENTRIES := by
  unfold active_len
  exact Nat.min_le_right _ _

theorem lookup_body_steps_shape (env : Env) (t : bpf_sock_tuple) (udp : Bool)
    (key : tproxy_key) (E : tproxy_tuple) (hE : env.zt_tproxy_map key = some E) :
    ∀ e, e ∈ (lookup_body env t udp key).2 →
      e = Event.get_tproxy key ∨
        (∃ index, index < active_len E udp ∧ e = Event.read_index udp index) ∨
        (∃ port_key, port_key < MAX_TABLE_SIZE ∧ e = Event.read_mapping udp port_key) := by
  intro e he
  rw [lookup_body_eq env t udp key E hE] at he
  simp only [List.mem_cons] at he
  rcases he with rfl | he
  · exact Or.inl rfl
  · rcases scan_reads_shape E udp t _ e he with ⟨i, hi, rfl⟩ | ⟨k, hk, rfl⟩
    · exact Or.inr (Or.inl ⟨i, List.mem_range.1 hi, rfl⟩)
    · exact Or.inr (Or.inr ⟨k, by simpa [MAX_TABLE_SIZE] using hk, rfl⟩)

theorem lookup_body_in_bounds (env : Env) (t : bpf_sock_tuple) (udp : Bool) (key : tproxy_key) :
    ∀ e, e ∈ (lookup_body env t udp key).2 → e.in_bounds = true := by
  intro e he
  cases hE : env.zt_tproxy_map key with
  | none =>
    rw [lookup_body_absent env t udp key hE] at he
    simp only [List.mem_singleton] at he
    subst he
    rfl
  | some E =>
    rcases lookup_body_steps_shape env t udp key E hE e he with rfl | ⟨i, hi, rfl⟩ | ⟨k, hk, rfl⟩
    · rfl
    · have := active_len_le E udp
      simp only [Event.in_bounds, decide_eq_true_eq]
      omega
    · simpa [Event.in_bounds] using hk

theorem in_bounds_of_no_read (e : Event) (h : e.is_table_read = false) : e.in_bounds = true := by
  cases e <;> simp_all [Event.is_table_read, Event.in_bounds]

theorem lookup_body_out_no_read (env : Env) (t : bpf_sock_tuple) (udp : Bool)
    (key : tproxy_key) (out : Outcome) (h : (lookup_body env t udp key).1 = some out) :
    ∀ e, e ∈ out.trace → e.is_table_read = false := by
  cases hE : env.zt_tproxy_map key with
  | none =>
    rw [lookup_body_absent env t udp key hE] at h
    exact Option.noConfusion h
  | some E =>
    rw [lookup_body_eq env t udp key E hE] at h
    simp only at h
    split at h
    · cases udp
      · simp only [Bool.false_eq_true, if_false, Option.some.injEq] at h
        subst h
        exact tcp_hit_no_table_read env _
      · simp only [if_true, Option.some.injEq] at h
        subst h
        exact udp_hit_no_table_read env _
    · exact Option.noConfusion h

theorem main_loop_in_bounds (env : Env) (t : bpf_sock_tuple) (udp : Bool) :
    ∀ counts mask exponent e, e ∈ (main_loop env t udp counts mask exponent).trace →
      e.in_bounds = true := by
  intro counts
  induction counts with
  | nil => intro mask exponent e he; simp [main_loop] at he
  | cons count rest ih =>
    intro mask exponent e he
    cases h1 : (lookup_body env t udp ⟨t.daddr &&& mask, maxlen - count, 0⟩).1 with
    | some out =>
      rw [main_loop_cons_hit env t udp count rest mask exponent out h1] at he
      simp only [Outcome.after, List.mem_append] at he
      rcases he with he | he
      · exact lookup_body_in_bounds env t udp _ e he
      · exact in_bounds_of_no_read e (lookup_body_out_no_read env t udp _ out h1 e he)
    | none =>
      by_cases hm : mask = 0x00000080
      · rw [main_loop_cons_stop env t udp count rest mask exponent h1 hm] at he
        exact lookup_body_in_bounds env t udp _ e he
      · rw [main_loop_cons_next env t udp count rest mask exponent h1 hm] at he
        simp only [Outcome.after, List.mem_append] at he
        rcases he with he | he
        · exact lookup_body_in_bounds env t udp _ e he
        · exact ih _ _ e he

/-! ## The shape of an evaluation -/

theorem tcp_origin_shape (env : Env) (tcp : Bool) (t : bpf_sock_tuple) :
    tcp_origin env tcp t = (none, []) ∨
      tcp_origin env tcp t = (none, [Event.skc_lookup_tcp t none]) ∨
      (∃ sk, tcp_origin env tcp t =
        (none, [Event.skc_lookup_tcp t (some sk), Event.sk_release sk])) ∨
      (∃ sk, tcp_origin env tcp t = (some sk, [Event.skc_lookup_tcp t (some sk)])) := by
  unfold tcp_origin
  split
  · split
    · split
      · exact Or.inr (Or.inr (Or.inr ⟨_, rfl⟩))
      · exact Or.inr (Or.inr (Or.inl ⟨_, rfl⟩))
    · exact Or.inr (Or.inl rfl)
  · exact Or.inl rfl

theorem udp_origin_shape (env : Env) (udp : Bool) (t : bpf_sock_tuple) :
    udp_origin env udp t = (none, []) ∨
      udp_origin env udp t = (none, [Event.sk_lookup_udp t none]) ∨
      (∃ sk, udp_origin env udp t =
        (none, [Event.sk_lookup_udp t (some sk), Event.sk_release sk])) ∨
      (∃ sk, udp_origin env udp t = (some sk, [Event.sk_lookup_udp t (some sk)])) := by
  simp only [udp_origin]
  split
  · split
    · split
      · exact Or.inr (Or.inr (Or.inr ⟨_, rfl⟩))
      · exact Or.inr (Or.inr (Or.inl ⟨_, rfl⟩))
    · exact Or.inr (Or.inl rfl)
  · exact Or.inl rfl

theorem classify_shape (env : Env) (ifx : Nat) (t : bpf_sock_tuple) (udp tcp : Bool) :
    classify_tuple env ifx t udp tcp = ⟨TC_ACT_OK, [Event.get_local_ip4 ifx]⟩ ∨
      (∃ sk s1, tcp_origin env tcp t = (some sk, s1) ∧
        classify_tuple env ifx t udp tcp =
          (assign env sk).after (Event.get_local_ip4 ifx :: s1)) ∨
      (∃ s1 sk s2, tcp_origin env tcp t = (none, s1) ∧ udp_origin env udp t = (some sk, s2) ∧
        classify_tuple env ifx t udp tcp =
          (assign env sk).after (Event.get_local_ip4 ifx :: (s1 ++ s2))) ∨
      (∃ s1 s2, tcp_origin env tcp t = (none, s1) ∧ udp_origin env udp t = (none, s2) ∧
        classify_tuple env ifx t udp tcp =
          (main_loop env t udp (List.range (maxlen + 1)) 0xffffffff 24).after
            (Event.get_local_ip4 ifx :: (s1 ++ s2))) := by
  unfold classify_tuple
  simp only
  split
  · exact Or.inl rfl
  · split
    · exact Or.inl rfl
    · generalize tcp_origin env tcp t = r1
      generalize udp_origin env udp t = r2
      obtain ⟨a1, s1⟩ := r1
      obtain ⟨a2, s2⟩ := r2
      cases a1 with
      | some sk => exact Or.inr (Or.inl ⟨sk, s1, rfl, rfl⟩)
      | none =>
        cases a2 with
        | some sk => exact Or.inr (Or.inr (Or.inl ⟨s1, sk, s2, rfl, rfl, rfl⟩))
        | none => exact Or.inr (Or.inr (Or.inr ⟨s1, s2, rfl, rfl, rfl⟩))

theorem splice_shape (env : Env) (skb : sk_buff) :
    bpf_sk_splice env skb = ⟨TC_ACT_SHOT, []⟩ ∨ bpf_sk_splice env skb = ⟨TC_ACT_OK, []⟩ ∨
      ∃ t udp tcp, bpf_sk_splice env skb = classify_tuple env skb.ingress_ifindex t udp tcp := by
  unfold bpf_sk_splice
  split
  · exact Or.inl rfl
  · split
    · split
      · exact Or.inr (Or.inl rfl)
      · exact Or.inl rfl
    · split
      · exact Or.inl rfl
      · exact Or.inr (Or.inr ⟨_, _, _, rfl⟩)

theorem tcp_origin_no_read (env : Env) (tcp : Bool) (t : bpf_sock_tuple) :
    ∀ e, e ∈ (tcp_origin env tcp t).2 → e.is_table_read = false := by
  rcases tcp_origin_shape env tcp t with g | g | ⟨sk, g⟩ | ⟨sk, g⟩ <;> rw [g] <;>
    simp [Event.is_table_read]

theorem udp_origin_no_read (env : Env) (udp : Bool) (t : bpf_sock_tuple) :
    ∀ e, e ∈ (udp_origin env udp t).2 → e.is_table_read = false := by
  rcases udp_origin_shape env udp t with g | g | ⟨sk, g⟩ | ⟨sk, g⟩ <;> rw [g] <;>
    simp [Event.is_table_read]

theorem assign_no_read (env : Env) (sk : bpf_sock) :
    ∀ e, e ∈ (assign env sk).trace → e.is_table_read = false := by
  rw [assign_trace]
  simp [Event.is_table_read]

theorem classify_in_bounds (env : Env) (ifx : Nat) (t : bpf_sock_tuple) (udp tcp : Bool) :
    ∀ e, e ∈ (classify_tuple env ifx t udp tcp).trace → e.in_bounds = true := by
  intro e he
  have ht := tcp_origin_no_read env tcp t
  have hu := udp_origin_no_read env udp t
  rcases classify_shape env ifx t udp tcp with h | ⟨sk, s1, h1, h⟩ | ⟨s1, sk, s2, h1, h2, h⟩ |
      ⟨s1, s2, h1, h2, h⟩
  · rw [h] at he
    simp only [List.mem_singleton] at he
    subst he
    rfl
  · rw [h] at he
    rw [h1] at ht
    simp only [Outcome.after, List.mem_append, List.mem_cons] at he
    rcases he with (rfl | he) | he
    · rfl
    · exact in_bounds_of_no_read e (ht e he)
    · exact in_bounds_of_no_read e (assign_no_read env sk e he)
  · rw [h] at he
    rw [h1] at ht
    rw [h2] at hu
    simp only [Outcome.after, List.mem_append, List.mem_cons] at he
    rcases he with (rfl | he | he) | he
    · rfl
    · exact in_bounds_of_no_read e (ht e he)
    · exact in_bounds_of_no_read e (hu e he)
    · exact in_bounds_of_no_read e (assign_no_read env sk e he)
  · rw [h] at he
    rw [h1] at ht
    rw [h2] at hu
    simp only [Outcome.after, List.mem_append, List.mem_cons] at he
    rcases he with (rfl | he | he) | he
    · rfl
    · exact in_bounds_of_no_read e (ht e he)
    · exact in_bounds_of_no_read e (hu e he)
    · exact main_loop_in_bounds env t udp _ _ _ e he

theorem splice_in_bounds (env : Env) (skb : sk_buff) :
    ∀ e, e ∈ (bpf_sk_splice env skb).trace → e.in_bounds = true := by
  intro e he
  rcases splice_shape env skb with h | h | ⟨t, udp, tcp, h⟩
  · rw [h] at he
    simp at he
  · rw [h] at he
    simp at he
  · rw [h] at he
    exact classify_in_bounds env _ t udp tcp e he

theorem udp_scan_congr (E F : tproxy_tuple) (t : bpf_sock_tuple)
    (h1 : F.udp_index_table = E.udp_index_table) (h2 : F.udp_mapping = E.udp_mapping) :
    ∀ l, udp_scan F t l = udp_scan E t l := by
  intro l
  induction l with
  | nil => rfl
  | cons index rest ih => simp only [udp_scan, h1, h2, ih]

theorem tcp_scan_congr (E F : tproxy_tuple) (t : bpf_sock_tuple)
    (h1 : F.tcp_index_table = E.tcp_index_table) (h2 : F.tcp_mapping = E.tcp_mapping) :
    ∀ l, tcp_scan F t l = tcp_scan E t l := by
  intro l
  induction l with
  | nil => rfl
  | cons index rest ih => simp only [tcp_scan, h1, h2, ih]

theorem lookup_body_clamp (env : Env) (t : bpf_sock_tuple) (udp : Bool) (key : tproxy_key)
    (E : tproxy_tuple) (hE : env.zt_tproxy_map key = some E) (k : tproxy_key) :
    lookup_body (env.with_entry key E.clamp) t udp k = lookup_body env t udp k := by
  by_cases hk : k = key
  · subst hk
    have hE2 : (env.with_entry k E.clamp).zt_tproxy_map k = some E.clamp := by
      simp [Env.with_entry]
    have hlen : active_len E.clamp udp = active_len E udp := by
      cases udp <;> simp [active_len, tproxy_tuple.clamp]
    rw [lookup_body_eq env t udp k E hE, lookup_body_eq _ t udp k E.clamp hE2, hlen]
    simp only [scan_first, scan_reads, udp_scan_congr E E.clamp t rfl rfl,
      tcp_scan_congr E E.clamp t rfl rfl]
    rfl
  · simp only [lookup_body, get_tproxy, Env.with_entry, if_neg hk]
    rfl

theorem main_loop_congr (env env2 : Env) (t : bpf_sock_tuple) (udp : Bool)
    (h : ∀ k, lookup_body env2 t udp k = lookup_body env t udp k) :
    ∀ counts mask exponent,
      main_loop env2 t udp counts mask exponent = main_loop env t udp counts mask exponent := by
  intro counts
  induction counts with
  | nil => intro mask exponent; rfl
  | cons count rest ih =>
    intro mask exponent
    simp only [main_loop, h, ih]

theorem splice_with_entry (env : Env) (skb : sk_buff) (key : tproxy_key) (F : tproxy_tuple)
    (h : ∀ t udp k, lookup_body (env.with_entry key F) t udp k = lookup_body env t udp k) :
    bpf_sk_splice (env.with_entry key F) skb = bpf_sk_splice env skb := by
  have hm := fun t udp => main_loop_congr env (env.with_entry key F) t udp (h t udp)
  have hc : ∀ ifx t udp tcp, classify_tuple (env.with_entry key F) ifx t udp tcp =
      classify_tuple env ifx t udp tcp := by
    intro ifx t udp tcp
    simp only [classify_tuple, hm]
    rfl
  simp only [bpf_sk_splice, hc]

/-- C15: for a matched entry and either protocol, the scan reads the index
table only at positions below min(index_len, 25), hence below
MAX_INDEX_ENTRIES, and the mapping array only at 16-bit port keys, hence below
MAX_TABLE_SIZE; no array read of a whole packet evaluation is out of bounds;
and the evaluation is the same as with the entry's stored index lengths cut
down to 25. -/
theorem scan_capacity_bound (env : Env) (skb : sk_buff) (key : tproxy_key) (E : tproxy_tuple)
    (hE : env.zt_tproxy_map key = some E) :
    (∀ t udp e, e ∈ (lookup_body env t udp key).2 →
        e = Event.get_tproxy key ∨
          (∃ index, index < min (if udp then E.udp_index_len else E.tcp_index_len) 25 ∧
            index < MAX_INDEX_ENTRIES ∧ e = Event.read_index udp index) ∨
          (∃ port_key, port_key < MAX_TABLE_SIZE ∧ e = Event.read_mapping udp port_key)) ∧
      (∀ e, e ∈ (bpf_sk_splice env skb).trace → e.in_bounds = true) ∧
      (∀ t udp, lookup_body (env.with_entry key E.clamp) t udp key = lookup_body env t udp key) ∧
      bpf_sk_splice (env.with_entry key E.clamp) skb = bpf_sk_splice env skb := by
  refine ⟨fun t udp e he => ?_, splice_in_bounds env skb,
    fun t udp => lookup_body_clamp env t udp key E hE key,
    splice_with_entry env skb key E.clamp (fun t udp k => lookup_body_clamp env t udp key E hE k)⟩
  rcases lookup_body_steps_shape env t udp key E hE e he with h | ⟨i, hi, h⟩ | h
  · exact Or.inl h
  · have := active_len_le E udp
    exact Or.inr (Or.inl ⟨i, hi, by omega, h⟩)
  · exact Or.inr (Or.inr h)

/-- C15, witness: the entry of 10.0.0.0/24 stores a TCP index length of 40. -/
theorem scan_capacity_bound_witness :
    (∀ t udp e, e ∈ (lookup_body env_overlong t udp ⟨0x0000000a, 24, 0⟩).2 →
        e = Event.get_tproxy ⟨0x0000000a, 24, 0⟩ ∨
          (∃ index,
            index < min (if udp then entry_overlong.udp_index_len
              else entry_overlong.tcp_index_len) 25 ∧
            index < MAX_INDEX_ENTRIES ∧ e = Event.read_index udp index) ∨
          (∃ port_key, port_key < MAX_TABLE_SIZE ∧ e = Event.read_mapping udp port_key)) ∧
      (∀ e, e ∈ (bpf_sk_splice env_overlong frame_9999).trace → e.in_bounds = true) ∧
      (∀ t udp, lookup_body (env_overlong.with_entry ⟨0x0000000a, 24, 0⟩ entry_overlong.clamp)
        t udp ⟨0x0000000a, 24, 0⟩ = lookup_body env_overlong t udp ⟨0x0000000a, 24, 0⟩) ∧
      bpf_sk_splice (env_overlong.with_entry ⟨0x0000000a, 24, 0⟩ entry_overlong.clamp)
        frame_9999 = bpf_sk_splice env_overlong frame_9999 :=
  scan_capacity_bound env_overlong frame_9999 ⟨0x0000000a, 24, 0⟩ entry_overlong rfl

theorem scan_capacity_example :
    entry_overlong.clamp.tcp_index_len = 25 ∧
      (bpf_sk_splice env_overlong frame_9999).trace.filterMap
        (fun e => match e with
          | Event.read_index _ index => some index
          | _ => none) = List.range 25 := by
  decide

/-! ## C18: first match wins inside an entry -/

/-- C18: for an entry found by a lookup of the main loop and any active index
position `pos` of the packet's protocol whose range covers the destination port,
the scan stops at the lowest covering position `first` ≤ `pos`: the lookup
leaves the loop with the hit code for the range at `first`, whose socket lookup
is for that range's target, and when the entry is the one of the longest
matching prefix length this is the one socket lookup of the matcher. -/
theorem first_match_wins (env : Env) (t : bpf_sock_tuple) (udp : Bool) (key : tproxy_key)
    (E : tproxy_tuple) (pos : Nat) (hE : env.zt_tproxy_map key = some E)
    (hpos : pos < active_len E udp) (hcov : covers E udp pos (bpf_ntohs t.dport)) :
    ∃ first, first ≤ pos ∧ first_cover E udp (bpf_ntohs t.dport) first ∧
      scan_first E udp t (List.range (active_len E udp)) = some (port_key_at E udp first) ∧
      (lookup_body env t udp key).1 = some (range_hit env E udp first) ∧
      socket_lookups (range_hit env E udp first).trace =
        [target_lookup env udp (range_target E udp first)] ∧
      (∀ p, 1 ≤ p → p ≤ 32 → key = prefix_key t.daddr p →
        (∀ q, p < q → q ≤ 32 → ¬ prefix_hit env t udp q) →
        socket_lookups (matcher env t udp).trace =
          [target_lookup env udp (range_target E udp first)]) := by
  obtain ⟨first, hfirst⟩ := has_cover_first E udp _ ⟨pos, hpos, hcov⟩
  have hle : first ≤ pos := by
    by_contra hgt
    exact hfirst.2.2 pos (by omega) hcov
  refine ⟨first, hle, hfirst, ?_, lookup_body_hit env t udp key E first hE hfirst,
    range_hit_sockets env E udp first, ?_⟩
  · rw [List.range_eq_range']
    exact scan_first_some E udp t (active_len E udp) 0 first (Nat.zero_le _)
      (by have := hfirst.1; omega) hfirst.2.1 (fun q _ hq => hfirst.2.2 q hq)
  · intro p hp1 hp hkey hlong
    rw [hkey] at hE
    rw [matcher_first_hit env t udp p E first hp1 hp hE hfirst hlong]
    simp only [Outcome.after]
    rw [socket_lookups_append, socket_lookups_reads _ (pre_steps_reads env t udp _),
      range_hit_sockets, List.nil_append]

/-- C18, witness: the ranges 8000-9000 (position 0) and 8080-8090 (position 1)
both cover port 8085; the theorem is applied at position 1. -/
theorem first_match_wins_witness :
    ∃ first, first ≤ 1 ∧ first_cover entry_overlap false (bpf_ntohs tuple_8085.dport) first ∧
      scan_first entry_overlap false tuple_8085 (List.range (active_len entry_overlap false)) =
        some (port_key_at entry_overlap false first) ∧
      (lookup_body env_overlap tuple_8085 false ⟨0x0000000a, 24, 0⟩).1 =
        some (range_hit env_overlap entry_overlap false first) ∧
      socket_lookups (range_hit env_overlap entry_overlap false first).trace =
        [target_lookup env_overlap false (range_target entry_overlap false first)] ∧
      (∀ p, 1 ≤ p → p ≤ 32 → (⟨0x0000000a, 24, 0⟩ : tproxy_key) = prefix_key tuple_8085.daddr p →
        (∀ q, p < q → q ≤ 32 → ¬ prefix_hit env_overlap tuple_8085 false q) →
        socket_lookups (matcher env_overlap tuple_8085 false).trace =
          [target_lookup env_overlap false (range_target entry_overlap false first)]) :=
  first_match_wins env_overlap tuple_8085 false ⟨0x0000000a, 24, 0⟩ entry_overlap 1 rfl
    (by decide) (by decide)

theorem first_match_example :
    covers entry_overlap false 0 (bpf_ntohs tuple_8085.dport) ∧
      covers entry_overlap false 1 (bpf_ntohs tuple_8085.dport) ∧
      socket_lookups (matcher env_overlap tuple_8085 false).trace =
        [Event.skc_lookup_tcp ⟨0, 0x0100007f, 0, bpf_htons 7001⟩ none] := by
  decide

/-! ## C17: the sequence of lookup keys -/

theorem matcher_lookups_le (env : Env) (t : bpf_sock_tuple) (udp : Bool) :
    (tproxy_lookups (matcher env t udp).trace).length ≤ 32 := by
  rcases matcher_cases env t udp with ⟨p, E, pos, hp1, hp, _, _, _, hm⟩ | ⟨_, hm⟩
  · rw [hm]
    simp only [Outcome.after]
    rw [tproxy_lookups_append,
      tproxy_lookups_sockets _ (range_hit_no_table_read env E udp pos), List.append_nil,
      pre_steps_keys env t udp _ (by omega), List.length_map, List.length_range]
    omega
  · rw [hm]
    simp only
    rw [pre_steps_keys env t udp 32 (Nat.le_refl _), List.length_map, List.length_range]

set_option maxRecDepth 8000 in
theorem code_mask_closed_form :
    ∀ p, p ≤ 32 → code_mask p = bswap32 ((0xffffffff <<< (32 - p)) % 2 ^ 32) := by
  decide

set_option maxRecDepth 8000 in
theorem code_mask_popcount : ∀ p, p ≤ 32 → popcount32 (code_mask p) = p := by
  decide

set_option maxRecDepth 8000 in
theorem code_mask_clears_one_bit :
    ∀ p, p ≤ 32 → 2 ≤ p →
      ∃ b, b < 32 ∧ (code_mask p).testBit b = true ∧ code_mask (p - 1) = code_mask p - 2 ^ b := by
  decide

/-- C17: when no lookup yields a range match, the matcher looks up exactly the
32 keys (d & M(p), p, 0) for p = 32, 31, ..., 1 in that order and returns DROP,
where M(p) is the mask of the code: M(32) = 0xFFFFFFFF, M(p - 1) is M(p) with
one set bit cleared, M(p) has p bits set and equals
byteswap32(0xFFFFFFFF << (32 - p)); whatever the table, the loop makes at most
33 (in fact at most 32) lookups. -/
theorem lookup_key_sequence (env : Env) (t : bpf_sock_tuple) (udp : Bool) :
    ((∀ q, 1 ≤ q → q ≤ 32 → ¬ prefix_hit env t udp q) →
        tproxy_lookups (matcher env t udp).trace =
            (List.range 32).map
              (fun j => (⟨t.daddr &&& code_mask (32 - j), 32 - j, 0⟩ : tproxy_key)) ∧
          (matcher env t udp).verdict = TC_ACT_SHOT) ∧
      code_mask 32 = 0xffffffff ∧
      (∀ p, p ≤ 32 → 2 ≤ p →
        ∃ b, b < 32 ∧ (code_mask p).testBit b = true ∧ code_mask (p - 1) = code_mask p - 2 ^ b) ∧
      (∀ p, p ≤ 32 → popcount32 (code_mask p) = p) ∧
      (∀ p, p ≤ 32 → code_mask p = bswap32 ((0xffffffff <<< (32 - p)) % 2 ^ 32)) ∧
      code_mask 24 = 0x00ffffff ∧ code_mask 16 = 0x0000ffff ∧ code_mask 8 = 0x000000ff ∧
      code_mask 1 = 0x00000080 ∧
      (tproxy_lookups (matcher env t udp).trace).length ≤ 33 := by
  refine ⟨fun hmiss => ?_, by decide, code_mask_clears_one_bit, code_mask_popcount,
    code_mask_closed_form, by decide, by decide, by decide, by decide,
    Nat.le_succ_of_le (matcher_lookups_le env t udp)⟩
  rw [matcher_no_hit env t udp hmiss]
  refine ⟨?_, rfl⟩
  simp only
  rw [pre_steps_keys env t udp 32 (Nat.le_refl _)]
  apply List.map_congr_left
  intro j hj
  rw [List.mem_range] at hj
  simp only [prefix_key, code_mask]
  rw [loop_state_mask (32 - (32 - j)) (by omega)]
  have h : 32 - (32 - (32 - j)) = 32 - j := by omega
  rw [h]

/-- C17, witness: the empty table and a TCP packet to 10.0.0.5:8085. -/
theorem lookup_key_sequence_witness :
    tproxy_lookups (matcher env_empty tuple_8085 false).trace =
        (List.range 32).map
          (fun j => (⟨tuple_8085.daddr &&& code_mask (32 - j), 32 - j, 0⟩ : tproxy_key)) ∧
      (matcher env_empty tuple_8085 false).verdict = TC_ACT_SHOT :=
  (lookup_key_sequence env_empty tuple_8085 false).1
    (by
      rintro q _ _ ⟨E, hE, _⟩
      exact Option.noConfusion hE)

/-! ## C16: the mask arithmetic and its closed form -/

theorem closed_form_from (env : Env) (t : bpf_sock_tuple) (udp : Bool) :
    ∀ n k, k + n = 31 →
      main_loop env t udp (List.range' k (33 - k)) (loop_state k).1 (loop_state k).2 =
        closed_form_search cidr_mask env t udp ((List.range' k (32 - k)).map (fun j => 32 - j)) := by
  intro n
  induction n with
  | zero =>
    intro k hk
    have hk31 : k = 31 := by omega
    subst hk31
    have e1 : List.range' 31 (33 - 31) = [31, 32] := rfl
    have e2 : (List.range' 31 (32 - 31)).map (fun j => 32 - j) = [32 - 31] := rfl
    rw [e1, e2, main_loop, closed_form_search, loop_state_mask 31 (by omega)]
    have hm : cidr_mask (32 - 31) = 0x00000080 := by decide
    simp only [hm, maxlen, if_true]
    generalize lookup_body env t udp _ = r
    obtain ⟨a, s⟩ := r
    cases a
    · simp [closed_form_search, Outcome.after]
    · rfl
  | succ n ih =>
    intro k hk
    have h1 : 33 - k = (33 - (k + 1)) + 1 := by omega
    have h2 : 32 - k = (32 - (k + 1)) + 1 := by omega
    have e1 : List.range' k (33 - k) = k :: List.range' (k + 1) (33 - (k + 1)) := by
      rw [h1, List.range'_succ]
    have e2 : (List.range' k (32 - k)).map (fun j => 32 - j) =
        (32 - k) :: (List.range' (k + 1) (32 - (k + 1))).map (fun j => 32 - j) :=
      calc (List.range' k (32 - k)).map (fun j => 32 - j)
          = (List.range' k ((32 - (k + 1)) + 1)).map (fun j => 32 - j) := by rw [← h2]
        _ = (32 - k) :: (List.range' (k + 1) (32 - (k + 1))).map (fun j => 32 - j) := by
          rw [List.range'_succ, List.map_cons]
    rw [e1, e2, main_loop, closed_form_search]
    have hmask := loop_state_mask k (by omega)
    have hns := loop_state_not_stop k (by omega)
    have hnext : main_loop env t udp (List.range' (k + 1) (33 - (k + 1)))
        (next_mask (loop_state k).1 (next_exponent (loop_state k).1 (loop_state k).2))
        (next_exponent (loop_state k).1 (loop_state k).2 + 1) =
        closed_form_search cidr_mask env t udp
          ((List.range' (k + 1) (32 - (k + 1))).map (fun j => 32 - j)) :=
      ih (k + 1) (by omega)
    simp only [if_neg hns, hnext, maxlen]
    rw [hmask]

/-- C16, as amended: for every prefix length p from 0 to 32 the mask the
octet-by-octet arithmetic gives after 32 - p steps is
byteswap32(0xFFFFFFFF << (32 - p)), the netmask of an address held in network
byte order (the loop builds keys with it for p = 32, ..., 1), and replacing the
arithmetic by this closed form over the prefix lengths 32, 31, ..., 1 leaves the
whole evaluation of the matcher (lookup keys, socket lookups, verdict)
unchanged for every packet and table. -/
theorem mask_closed_form (env : Env) (t : bpf_sock_tuple) (udp : Bool) :
    (∀ p, p ≤ 32 → code_mask p = bswap32 ((0xffffffff <<< (32 - p)) % 2 ^ 32)) ∧
      matcher env t udp = closed_form_search cidr_mask env t udp prefix_lengths_to_one := by
  refine ⟨code_mask_closed_form, ?_⟩
  have h := closed_form_from env t udp 31 0 (by omega)
  rw [matcher, List.range_eq_range', prefix_lengths_to_one, List.range_eq_range']
  exact h

/-- C16, counterexample: at prefix length 31 the code's mask is 0xfeffffff and
0xFFFFFFFF << 1 is 0xfffffffe; for the table {10.0.0.0/24, TCP 8080-8090} and a
TCP packet to 10.0.0.5:8085 the code looks up 10.0.0.0/24 and passes, the
search with mask = 0xFFFFFFFF << (32 - prefix_length) looks up other keys and
drops. -/
theorem mask_shift_formula_differs :
    code_mask 31 = 0xfeffffff ∧ shl_mask 31 = 0xfffffffe ∧
      code_mask 24 = 0x00ffffff ∧ shl_mask 24 = 0xffffff00 ∧
      tproxy_lookups (matcher env_one_rule tuple_8085 false).trace ≠
        (tproxy_lookups (closed_form_search shl_mask env_one_rule tuple_8085 false
          prefix_lengths_to_zero).trace).take 9 ∧
      (matcher env_one_rule tuple_8085 false).verdict = TC_ACT_OK ∧
      (closed_form_search shl_mask env_one_rule tuple_8085 false
        prefix_lengths_to_zero).verdict = TC_ACT_SHOT := by
  decide

/-! ## C19: socket references -/

theorem refs_run_append (a b : List Event) :
    ∀ held, refs_run (a ++ b) held = (refs_run a held).bind (refs_run b) := by
  induction a with
  | nil => intro held; rfl
  | cons e rest ih =>
    intro held
    simp only [List.cons_append, refs_run]
    cases refs_step held e with
    | none => rfl
    | some h1 => exact ih h1

theorem refs_step_read (e : Event) (held : List bpf_sock) (h : e.is_table_read = true) :
    refs_step held e = some held := by
  cases e <;> simp_all [Event.is_table_read, refs_step]

theorem refs_run_reads (l : List Event) (h : ∀ e, e ∈ l → e.is_table_read = true) :
    ∀ held, refs_run l held = some held := by
  induction l with
  | nil => intro held; rfl
  | cons e rest ih =>
    intro held
    simp only [refs_run, refs_step_read e held (h e (List.mem_cons_self _ _)), Option.some_bind]
    exact ih (fun x hx => h x (List.mem_cons_of_mem _ hx)) held

theorem assign_refs (env : Env) (sk : bpf_sock) :
    refs_run (assign env sk).trace [sk] = some [] := by
  simp [assign_trace, refs_run, refs_step]

theorem udp_hit_refs (env : Env) (m : tproxy_udp_port_mapping) :
    refs_run (udp_hit env m).trace [] = some [] := by
  simp only [udp_hit]
  split
  · rfl
  · simp [Outcome.after, assign_trace, refs_run, refs_step]

theorem tcp_hit_refs (env : Env) (m : tproxy_tcp_port_mapping) :
    refs_run (tcp_hit env m).trace [] = some [] := by
  simp only [tcp_hit]
  split
  · rfl
  · split
    · simp [refs_run, refs_step]
    · simp [Outcome.after, assign_trace, refs_run, refs_step]

theorem lookup_body_out_refs (env : Env) (t : bpf_sock_tuple) (udp : Bool)
    (key : tproxy_key) (out : Outcome) (h : (lookup_body env t udp key).1 = some out) :
    refs_run out.trace [] = some [] := by
  cases hE : env.zt_tproxy_map key with
  | none =>
    rw [lookup_body_absent env t udp key hE] at h
    exact Option.noConfusion h
  | some E =>
    rw [lookup_body_eq env t udp key E hE] at h
    simp only at h
    split at h
    · cases udp
      · simp only [Bool.false_eq_true, if_false, Option.some.injEq] at h
        subst h
        exact tcp_hit_refs env _
      · simp only [if_true, Option.some.injEq] at h
        subst h
        exact udp_hit_refs env _
    · exact Option.noConfusion h

theorem main_loop_refs (env : Env) (t : bpf_sock_tuple) (udp : Bool) :
    ∀ counts mask exponent,
      refs_run (main_loop env t udp counts mask exponent).trace [] = some [] := by
  intro counts
  induction counts with
  | nil => intro mask exponent; rfl
  | cons count rest ih =>
    intro mask exponent
    have hr := refs_run_reads _ (lookup_body_reads env t udp ⟨t.daddr &&& mask, maxlen - count, 0⟩)
    cases h1 : (lookup_body env t udp ⟨t.daddr &&& mask, maxlen - count, 0⟩).1 with
    | some out =>
      rw [main_loop_cons_hit env t udp count rest mask exponent out h1]
      simp only [Outcome.after]
      rw [refs_run_append, hr, Option.some_bind]
      exact lookup_body_out_refs env t udp _ out h1
    | none =>
      by_cases hm : mask = 0x00000080
      · rw [main_loop_cons_stop env t udp count rest mask exponent h1 hm]
        exact hr []
      · rw [main_loop_cons_next env t udp count rest mask exponent h1 hm]
        simp only [Outcome.after]
        rw [refs_run_append, hr, Option.some_bind]
        exact ih _ _

theorem tcp_origin_refs (env : Env) (tcp : Bool) (t : bpf_sock_tuple) :
    refs_run (tcp_origin env tcp t).2 [] =
      some (match (tcp_origin env tcp t).1 with
        | some sk => [sk]
        | none => []) := by
  rcases tcp_origin_shape env tcp t with g | g | ⟨sk, g⟩ | ⟨sk, g⟩ <;> rw [g] <;>
    simp [refs_run, refs_step]

theorem udp_origin_refs (env : Env) (udp : Bool) (t : bpf_sock_tuple) :
    refs_run (udp_origin env udp t).2 [] =
      some (match (udp_origin env udp t).1 with
        | some sk => [sk]
        | none => []) := by
  rcases udp_origin_shape env udp t with g | g | ⟨sk, g⟩ | ⟨sk, g⟩ <;> rw [g] <;>
    simp [refs_run, refs_step]

theorem classify_refs (env : Env) (ifx : Nat) (t : bpf_sock_tuple) (udp tcp : Bool) :
    refs_run (classify_tuple env ifx t udp tcp).trace [] = some [] := by
  have ht := tcp_origin_refs env tcp t
  have hu := udp_origin_refs env udp t
  have h0 : ∀ l, refs_run (Event.get_local_ip4 ifx :: l) [] = refs_run l [] := fun l => rfl
  rcases classify_shape env ifx t udp tcp with h | ⟨sk, s1, h1, h⟩ | ⟨s1, sk, s2, h1, h2, h⟩ |
      ⟨s1, s2, h1, h2, h⟩
  · rw [h]
    rfl
  · rw [h1] at ht
    simp only at ht
    rw [h]
    simp only [Outcome.after, List.cons_append]
    rw [h0, refs_run_append, ht, Option.some_bind]
    exact assign_refs env sk
  · rw [h1] at ht
    rw [h2] at hu
    simp only at ht hu
    rw [h]
    simp only [Outcome.after, List.cons_append]
    rw [h0, refs_run_append, refs_run_append, ht, Option.some_bind, hu, Option.some_bind]
    exact assign_refs env sk
  · rw [h1] at ht
    rw [h2] at hu
    simp only at ht hu
    rw [h]
    simp only [Outcome.after, List.cons_append]
    rw [h0, refs_run_append, refs_run_append, ht, Option.some_bind, hu, Option.some_bind]
    exact main_loop_refs env t udp _ _ _

theorem splice_refs (env : Env) (skb : sk_buff) :
    refs_run (bpf_sk_splice env skb).trace [] = some [] := by
  rcases splice_shape env skb with h | h | ⟨t, udp, tcp, h⟩
  · rw [h]
    rfl
  · rw [h]
    rfl
  · rw [h]
    exact classify_refs env _ t udp tcp

theorem refs_count (l : List Event) :
    ∀ held final, refs_run l held = some final →
      successful_lookups l + held.length = releases l + final.length := by
  induction l with
  | nil =>
    intro held final h
    simp only [refs_run, Option.some.injEq] at h
    subst h
    rfl
  | cons e rest ih =>
    intro held final h
    simp only [refs_run] at h
    cases hs : refs_step held e with
    | none =>
      rw [hs] at h
      exact Option.noConfusion h
    | some h1 =>
      rw [hs, Option.some_bind] at h
      have := ih h1 final h
      cases e with
      | skc_lookup_tcp tp sk =>
        cases sk with
        | none =>
          simp only [refs_step, Option.some.injEq] at hs
          subst hs
          simpa [successful_lookups, releases, Event.is_successful_lookup, Event.is_release]
            using this
        | some s =>
          simp only [refs_step, Option.some.injEq] at hs
          subst hs
          simp only [successful_lookups, releases, List.length_cons] at this ⊢
          simp only [List.filter_cons, Event.is_successful_lookup, Event.is_release, if_true,
            Bool.false_eq_true, if_false, List.length_cons]
          omega
      | sk_lookup_udp tp sk =>
        cases sk with
        | none =>
          simp only [refs_step, Option.some.injEq] at hs
          subst hs
          simpa [successful_lookups, releases, Event.is_successful_lookup, Event.is_release]
            using this
        | some s =>
          simp only [refs_step, Option.some.injEq] at hs
          subst hs
          simp only [successful_lookups, releases, List.length_cons] at this ⊢
          simp only [List.filter_cons, Event.is_successful_lookup, Event.is_release, if_true,
            Bool.false_eq_true, if_false, List.length_cons]
          omega
      | sk_release s =>
        simp only [refs_step] at hs
        split at hs
        · rename_i hmem
          simp only [Option.some.injEq] at hs
          subst hs
          have hlen := List.length_erase_of_mem hmem
          have hpos : 0 < held.length := List.length_pos_of_mem hmem
          simp only [successful_lookups, releases] at this ⊢
          simp only [List.filter_cons, Event.is_successful_lookup, Event.is_release, if_true,
            Bool.false_eq_true, if_false, List.length_cons]
          omega
        · exact Option.noConfusion hs
      | sk_assign s r =>
        simp only [refs_step] at hs
        split at hs
        · simp only [Option.some.injEq] at hs
          subst hs
          simpa [successful_lookups, releases, Event.is_successful_lookup, Event.is_release]
            using this
        · exact Option.noConfusion hs
      | get_local_ip4 k =>
        simp only [refs_step, Option.some.injEq] at hs
        subst hs
        simpa [successful_lookups, releases, Event.is_successful_lookup, Event.is_release]
          using this
      | get_tproxy k =>
        simp only [refs_step, Option.some.injEq] at hs
        subst hs
        simpa [successful_lookups, releases, Event.is_successful_lookup, Event.is_release]
          using this
      | read_index u i =>
        simp only [refs_step, Option.some.injEq] at hs
        subst hs
        simpa [successful_lookups, releases, Event.is_successful_lookup, Event.is_release]
          using this
      | read_mapping u k =>
        simp only [refs_step, Option.some.injEq] at hs
        subst hs
        simpa [successful_lookups, releases, Event.is_successful_lookup, Event.is_release]
          using this

/-- C19: on every exit path of one packet evaluation, for every table, socket
state and frame, the socket references balance: walking the trace from no
reference held, every release removes a reference that is held, every bind is
made on a reference that is held (hence not yet released), none is held when
the verdict is returned, and the number of successful lookups equals the number
of releases. -/
theorem socket_refs_balanced (env : Env) (skb : sk_buff) :
    refs_run (bpf_sk_splice env skb).trace [] = some [] ∧
      successful_lookups (bpf_sk_splice env skb).trace =
        releases (bpf_sk_splice env skb).trace := by
  have h := splice_refs env skb
  have hc := refs_count _ [] [] h
  exact ⟨h, by simpa using hc⟩

theorem socket_refs_examples :
    refs_run (bpf_sk_splice env_owned frame_8085).trace [] = some [] ∧
      successful_lookups (bpf_sk_splice env_owned frame_8085).trace = 1 ∧
      releases (bpf_sk_splice env_two_rules frame_8085).trace = 1 ∧
      successful_lookups (bpf_sk_splice env_empty frame_8085).trace = 0 ∧
      refs_run [Event.sk_release ⟨1, 10, 0⟩] [] = none ∧
      refs_run [Event.skc_lookup_tcp tuple_8085 (some ⟨1, 10, 0⟩), Event.sk_release ⟨1, 10, 0⟩,
        Event.sk_assign ⟨1, 10, 0⟩ 0] [] = none ∧
      refs_run [Event.skc_lookup_tcp tuple_8085 (some ⟨1, 10, 0⟩)] [] = some [⟨1, 10, 0⟩] := by
  decide

end TproxySplicer
